import Mathlib

/-!
# Tournament platform: the lifecycle reconciliation loop

A shallow embedding of `backend/scripts/tournamentManager.js`.

* Chain values of type `uint256` arrive as ethers `BigNumber`s; `toNumber` throws
  when the value is not a safe JavaScript integer.
* The outside world (wall clock, `Math.random`, the contract behind the RPC
  connection) is an oracle `Env`; the chain answers may depend on every call
  issued before.
* The mutable state is a `World`: the module-level contract handle, the number of
  clock readings and random draws consumed, and the chain calls issued so far.
* An `async` function that may reject is a function `World → Except JsError α × World`:
  the world survives a throw, as the effects of a JavaScript function do.
-/

namespace TournamentPlatform

/-! ## Data model -/

/-- Participant identifier (an address string). -/
abbrev Address := String

/-- The constant `Number.MAX_SAFE_INTEGER`, the largest value `BigNumber.toNumber` converts. -/
def MAX_SAFE_INTEGER : Nat := 9007199254740991

/-- Largest ECMAScript time value (milliseconds) `Date.now()` can return. -/
def MAX_TIME_VALUE : Nat := 8640000000000000

/-- The errors a JavaScript step of the manager can throw. -/
inductive JsError
  | overflow
  | typeError
  | callException
  deriving DecidableEq, Repr

/-- The method `BigNumber.toNumber()` of ethers v5, on the `uint256` value `b` the `BigNumber` holds:
throws on values above the safe range. -/
def toNumber (b : Nat) : Except JsError Nat :=
  if b ≤ MAX_SAFE_INTEGER then .ok b else .error .overflow

/-- One element of the array returned by `getAllTournaments`. The fields `id`,
`startTime`, `endTime`, `currentPlayers`, `maxPlayers` and `totalPrizePool` are
`BigNumber`s, given by their value; `status` is a plain number. -/
structure Tournament where
  id : Nat
  name : String
  status : Nat
  startTime : Nat
  endTime : Nat
  currentPlayers : Nat
  maxPlayers : Nat
  players : List Address
  gameType : String
  totalPrizePool : Nat
  deriving DecidableEq, Repr

/-- A call made on `tournamentContract`. -/
inductive Call
  | getAllTournaments
  | getPlayerScore (tournamentId : Nat) (player : Address)
  | submitScore (tournamentId : Nat) (player : Address) (score : ℚ)
  | finalizeTournament (tournamentId : Nat)
  | cancelTournament (tournamentId : Nat)
  | getTournamentWinners (tournamentId : Nat)
  deriving DecidableEq, Repr

/-- The state-changing calls (transactions); the others are reads. -/
def Call.isWrite : Call → Bool
  | .submitScore _ _ _ => true
  | .finalizeTournament _ => true
  | .cancelTournament _ => true
  | _ => false

/-- The score reads. -/
def Call.isScoreRead : Call → Bool
  | .getPlayerScore _ _ => true
  | _ => false

/-- The transactions among a sequence of calls. -/
def writes (cs : List Call) : List Call := cs.filter Call.isWrite

/-- The tournament a call is about. -/
def Call.tournament : Call → Option Nat
  | .getAllTournaments => none
  | .getPlayerScore i _ => some i
  | .submitScore i _ _ => some i
  | .finalizeTournament i => some i
  | .cancelTournament i => some i
  | .getTournamentWinners i => some i

/-- The outside world as an oracle. A chain answer is a function of the calls issued
before it (`none`, or `false` for a transaction, is a call that throws). -/
structure Env where
  /-- Value of the `k`-th `Date.now()` of the run, in milliseconds. -/
  dateNow : Nat → Nat
  dateNow_le : ∀ k, dateNow k ≤ MAX_TIME_VALUE
  /-- Value of the `k`-th `Math.random()` of the run. -/
  random : Nat → ℚ
  random_range : ∀ k, 0 ≤ random k ∧ random k < 1
  /-- Whether `initializeContract` manages to build the contract handle. -/
  initSucceeds : Bool
  onGetAllTournaments : List Call → Option (List Tournament)
  onGetPlayerScore : List Call → Nat → Address → Option Nat
  onSubmitScore : List Call → Nat → Address → ℚ → Bool
  onFinalizeTournament : List Call → Nat → Bool
  onCancelTournament : List Call → Nat → Bool
  onGetTournamentWinners : List Call → Nat → Option (List Address)

/-- Mutable state of the manager module and its effects so far. -/
structure World where
  /-- Whether the module-level `tournamentContract` is set. -/
  contractReady : Bool
  /-- Number of `Date.now()` readings consumed. -/
  clockReads : Nat
  /-- Number of `Math.random()` draws consumed. -/
  draws : Nat
  /-- Chain calls issued so far, oldest first. -/
  calls : List Call
  deriving DecidableEq, Repr

/-! ## Primitive steps -/

/-- The reading `Date.now()`. -/
def dateNowMs (env : Env) (w : World) : Nat × World :=
  (env.dateNow w.clockReads, { w with clockReads := w.clockReads + 1 })

/-- The expression `Math.floor(Date.now() / 1000)`. -/
def currentTimeSeconds (env : Env) (w : World) : Nat × World :=
  ((dateNowMs env w).1 / 1000, (dateNowMs env w).2)

/-- The draw `Math.random()`. -/
def mathRandom (env : Env) (w : World) : ℚ × World :=
  (env.random w.draws, { w with draws := w.draws + 1 })

/-- Records a call on the trace. -/
def World.issue (w : World) (c : Call) : World :=
  { w with calls := w.calls ++ [c] }

/-- The read `await tournamentContract.getPlayerScore(id, player)`; `none` when it throws
(also when the handle is unset, a `TypeError` before any call). -/
def callGetPlayerScore (env : Env) (tournamentId : Nat) (player : Address) (w : World) :
    Option Nat × World :=
  if w.contractReady then
    (env.onGetPlayerScore w.calls tournamentId player, w.issue (.getPlayerScore tournamentId player))
  else (none, w)

/-- The transaction `tx = await tournamentContract.submitScore(..); await tx.wait()`; `false` when it throws. -/
def callSubmitScore (env : Env) (tournamentId : Nat) (player : Address) (score : ℚ)
    (w : World) : Bool × World :=
  if w.contractReady then
    (env.onSubmitScore w.calls tournamentId player score,
      w.issue (.submitScore tournamentId player score))
  else (false, w)

/-- The transaction `tx = await tournamentContract.finalizeTournament(id); await tx.wait()`. -/
def callFinalizeTournament (env : Env) (tournamentId : Nat) (w : World) : Bool × World :=
  if w.contractReady then
    (env.onFinalizeTournament w.calls tournamentId, w.issue (.finalizeTournament tournamentId))
  else (false, w)

/-- The transaction `tx = await tournamentContract.cancelTournament(id); await tx.wait()`. -/
def callCancelTournament (env : Env) (tournamentId : Nat) (w : World) : Bool × World :=
  if w.contractReady then
    (env.onCancelTournament w.calls tournamentId, w.issue (.cancelTournament tournamentId))
  else (false, w)

/-- The read `await tournamentContract.getTournamentWinners(id)`. -/
def callGetTournamentWinners (env : Env) (tournamentId : Nat) (w : World) :
    Option (List Address) × World :=
  if w.contractReady then
    (env.onGetTournamentWinners w.calls tournamentId, w.issue (.getTournamentWinners tournamentId))
  else (none, w)

/-! ## `initializeContract` and `fetchAllTournaments` -/

/-- Source function `initializeContract`: sets the module-level handle when the provider, wallet,
address and ABI can all be built; never throws. -/
def initializeContract (env : Env) (w : World) : Bool × World :=
  if env.initSucceeds then (true, { w with contractReady := true }) else (false, w)

/-- Source function `fetchAllTournaments`: the empty array when the handle is unset or the read throws. -/
def fetchAllTournaments (env : Env) (w : World) : List Tournament × World :=
  if !w.contractReady then ([], w)
  else
    match env.onGetAllTournaments w.calls with
    | some allTournaments => (allTournaments, w.issue .getAllTournaments)
    | none => ([], w.issue .getAllTournaments)

/-! ## Action executors -/

/-- Source function `generateRandomScore(gameType)`; the base score is drawn first, the
`P2W` multiplier second. -/
def generateRandomScore (env : Env) (gameType : String) (w : World) : ℚ × World :=
  let baseScore : ℚ := (⌊(mathRandom env w).1 * 900⌋ : ℤ) + 100
  let w1 := (mathRandom env w).2
  if gameType = "Default" then (baseScore, w1)
  else if gameType = "P2W" then (baseScore * ((mathRandom env w1).1 + 1 / 2), (mathRandom env w1).2)
  else if gameType = "Free to play" then (min baseScore 800, w1)
  else (baseScore, w1)

/-- The `for (const player of players)` loop of `simulateGameplay`: one score draw and
one `submitScore` per player; a failed submission is logged and the loop goes on. -/
def submitScores (env : Env) (tournamentId : Nat) (gameType : String) :
    List Address → World → World
  | [], w => w
  | player :: rest, w =>
    let w1 := (generateRandomScore env gameType w).2
    let w2 := (callSubmitScore env tournamentId player (generateRandomScore env gameType w).1 w1).2
    submitScores env tournamentId gameType rest w2

/-- Source function `simulateGameplay(tournament)`. Its `catch` handler logs without the
id and returns `false`. -/
def simulateGameplay (env : Env) (t : Tournament) (w : World) : Except JsError Bool × World :=
  match toNumber t.id with
  | .error _ => (.ok false, w)
  | .ok tournamentId =>
    if t.status ≠ 1 then (.ok false, w)
    else
      match t.players with
      | [] => (.ok true, submitScores env tournamentId t.gameType t.players w)
      | first :: _ =>
        let w1 := (callGetPlayerScore env tournamentId first w).2
        match (callGetPlayerScore env tournamentId first w).1 with
        | none => (.ok true, submitScores env tournamentId t.gameType t.players w1)
        | some existingScore =>
          match toNumber existingScore with
          | .error _ => (.ok true, submitScores env tournamentId t.gameType t.players w1)
          | .ok n =>
            if n > 0 then (.ok false, w1)
            else (.ok true, submitScores env tournamentId t.gameType t.players w1)

/-- The `catch` handlers of `finalizeTournament` and `cancelUnfilledTournament`: the log
line evaluates `tournament.id.toNumber()` again, then the handler returns `false`. -/
def catchLoggingId (t : Tournament) (w : World) : Except JsError Bool × World :=
  match toNumber t.id with
  | .error e => (.error e, w)
  | .ok _ => (.ok false, w)

/-- Source function `finalizeTournament(tournament)`. The winners and the prize split are only logged;
a failure of the winners read is caught on its own. -/
def finalizeTournament (env : Env) (t : Tournament) (w : World) : Except JsError Bool × World :=
  match toNumber t.id with
  | .error _ => catchLoggingId t w
  | .ok tournamentId =>
    if t.status ≠ 1 then (.ok false, w)
    else
      let currentTime := (currentTimeSeconds env w).1
      let w1 := (currentTimeSeconds env w).2
      match toNumber t.endTime with
      | .error _ => catchLoggingId t w1
      | .ok endTime =>
        if currentTime ≤ endTime then (.ok false, w1)
        else
          let w2 := (callFinalizeTournament env tournamentId w1).2
          if (callFinalizeTournament env tournamentId w1).1 then
            (.ok true, (callGetTournamentWinners env tournamentId w2).2)
          else catchLoggingId t w2

/-- Source function `cancelUnfilledTournament(tournament)`. A failure of the
`cancelTournament` transaction is caught by the inner handler, which returns `false`. -/
def cancelUnfilledTournament (env : Env) (t : Tournament) (w : World) :
    Except JsError Bool × World :=
  match toNumber t.id with
  | .error _ => catchLoggingId t w
  | .ok tournamentId =>
    if t.status ≠ 0 then (.ok false, w)
    else
      let currentTime := (currentTimeSeconds env w).1
      let w1 := (currentTimeSeconds env w).2
      match toNumber t.startTime with
      | .error _ => catchLoggingId t w1
      | .ok startTime =>
        if currentTime ≥ startTime then
          match toNumber t.currentPlayers with
          | .error _ => catchLoggingId t w1
          | .ok playerCount =>
            match toNumber t.maxPlayers with
            | .error _ => catchLoggingId t w1
            | .ok maxPlayers =>
              let hasMinimumPlayers : Bool := decide (playerCount ≥ 2)
              if hasMinimumPlayers && decide (playerCount < maxPlayers) then (.ok false, w1)
              else if !hasMinimumPlayers then
                ((.ok (callCancelTournament env tournamentId w1).1),
                  (callCancelTournament env tournamentId w1).2)
              else (.ok false, w1)
        else (.ok false, w1)

/-! ## The reconciliation loop -/

/-- The four branches of the `if`/`else` chain in the loop of `manageTournaments`. -/
inductive Action
  | cancel
  | simulate
  | finalize
  | noAction
  deriving DecidableEq, Repr

/-- The numbers the loop body holds when it reaches the `if`/`else` chain. -/
structure Reading where
  tournamentId : Nat
  status : Nat
  currentTime : Nat
  startTime : Nat
  endTime : Nat
  currentPlayers : Nat
  maxPlayers : Nat
  deriving DecidableEq, Repr

/-- The head of the loop body: the conversions and the clock reading made before
the `if`/`else` chain; any conversion may throw. -/
def readTournament (env : Env) (t : Tournament) (w : World) : Except JsError Reading × World :=
  match toNumber t.id with
  | .error e => (.error e, w)
  | .ok tournamentId =>
    let currentTime := (currentTimeSeconds env w).1
    let w1 := (currentTimeSeconds env w).2
    match toNumber t.startTime with
    | .error e => (.error e, w1)
    | .ok startTime =>
      match toNumber t.endTime with
      | .error e => (.error e, w1)
      | .ok endTime =>
        match toNumber t.currentPlayers with
        | .error e => (.error e, w1)
        | .ok currentPlayers =>
          match toNumber t.maxPlayers with
          | .error e => (.error e, w1)
          | .ok maxPlayers =>
            (.ok ⟨tournamentId, t.status, currentTime, startTime, endTime,
                currentPlayers, maxPlayers⟩, w1)

/-- The `if`/`else` chain of the loop body. -/
def selectAction (r : Reading) : Action :=
  if r.status = 0 ∧ r.currentTime ≥ r.startTime then
    if r.currentPlayers < 2 then .cancel else .noAction
  else if r.status = 1 ∧ r.currentTime < r.endTime then .simulate
  else if r.status = 1 ∧ r.currentTime ≥ r.endTime then .finalize
  else .noAction

/-- What each branch executes; the result is `actionTaken`. -/
def runAction (env : Env) (t : Tournament) : Action → World → Except JsError Bool × World
  | .cancel, w => cancelUnfilledTournament env t w
  | .simulate, w => simulateGameplay env t w
  | .finalize, w => finalizeTournament env t w
  | .noAction, w => (.ok false, w)

/-- The body of the `try` block inside the loop, for one tournament. -/
def processTournament (env : Env) (t : Tournament) (w : World) : Except JsError Bool × World :=
  match (readTournament env t w).1 with
  | .error e => (.error e, (readTournament env t w).2)
  | .ok r => runAction env t (selectAction r) (readTournament env t w).2

/-- The counters `processed` and `errors` of a pass. -/
structure Counters where
  processed : Nat
  errors : Nat
  deriving DecidableEq, Repr

/-- The `for (const tournament of tournaments)` loop with its `try`/`catch`. -/
def processAll (env : Env) : List Tournament → Counters → World → Counters × World
  | [], c, w => (c, w)
  | t :: rest, c, w =>
    match (processTournament env t w).1 with
    | .ok _ =>
      processAll env rest { c with processed := c.processed + 1 } (processTournament env t w).2
    | .error _ =>
      processAll env rest { c with errors := c.errors + 1 } (processTournament env t w).2

/-- How a pass ends, as its log tells. -/
inductive PassOutcome
  /-- The outer `catch`: "Fatal error in tournament management". -/
  | fatal
  /-- The early return: "No tournaments found to manage." -/
  | nothingToManage
  /-- The summary: "Processed p tournaments with e errors". -/
  | completed (c : Counters)
  deriving DecidableEq, Repr

/-- Number of tournaments a pass processed. -/
def PassOutcome.processed : PassOutcome → Nat
  | .completed c => c.processed
  | _ => 0

/-- Number of tournaments whose processing threw in a pass. -/
def PassOutcome.errors : PassOutcome → Nat
  | .completed c => c.errors
  | _ => 0

/-- Source function `manageTournaments()`. The ten one-second waits after a failed initialisation change
nothing the manager reads, so the handle is still unset after them. -/
def manageTournaments (env : Env) (w : World) : PassOutcome × World :=
  let w0 := (dateNowMs env w).2
  let w1 := if w0.contractReady then w0 else (initializeContract env w0).2
  if !w1.contractReady then (.fatal, w1)
  else
    let tournaments := (fetchAllTournaments env w1).1
    let w2 := (fetchAllTournaments env w1).2
    if tournaments.length = 0 then (.nothingToManage, w2)
    else
      let r := processAll env tournaments ⟨0, 0⟩ w2
      (.completed r.1, (dateNowMs env r.2).2)

/-! ## Concrete inputs used to exercise the statements -/

/-- A chain on which every call succeeds and every recorded score is `0`, with the
clock fixed at `nowMs` milliseconds (clipped to the time-value range). -/
def quietEnv (nowMs : Nat) : Env where
  dateNow := fun _ => min nowMs MAX_TIME_VALUE
  dateNow_le := fun _ => Nat.min_le_right _ _
  random := fun _ => 0
  random_range := fun _ => ⟨le_refl _, by norm_num⟩
  initSucceeds := true
  onGetAllTournaments := fun _ => some []
  onGetPlayerScore := fun _ _ _ => some 0
  onSubmitScore := fun _ _ _ _ => true
  onFinalizeTournament := fun _ _ => true
  onCancelTournament := fun _ _ => true
  onGetTournamentWinners := fun _ _ => some []

/-- The manager right after a successful initialisation, before any effect. -/
def readyWorld : World := ⟨true, 0, 0, []⟩

/-- The manager before `initializeContract` has run. -/
def freshWorld : World := ⟨false, 0, 0, []⟩

/-- Tournament #1 of the end-to-end scenario: Registration, one player of four,
start time 1000 s, end time 2000 s. -/
def scenarioTournament : Tournament :=
  { id := 1, name := "T1", status := 0, startTime := 1000, endTime := 2000,
    currentPlayers := 1, maxPlayers := 4, players := ["0xA"], gameType := "Default",
    totalPrizePool := 0 }

/-- Tournament #7: InProgress until 2000 s, with a roster of two. -/
def duoTournament : Tournament :=
  { id := 7, name := "T7", status := 1, startTime := 1000, endTime := 2000,
    currentPlayers := 2, maxPlayers := 2, players := ["0xA", "0xB"], gameType := "Default",
    totalPrizePool := 0 }

/-- A quiet chain at 1500 s whose tournament list is `[duoTournament]`. -/
def duoEnv : Env :=
  { quietEnv 1500000 with onGetAllTournaments := fun _ => some [duoTournament] }

/-- The world in which the loop starts when the fetch is reached: the handle is set,
the startup clock reading is consumed, the list read is on the trace. -/
def worldAfterFetch (w : World) : World :=
  ⟨true, w.clockReads + 1, w.draws, w.calls ++ [.getAllTournaments]⟩

/-- Tournament #1 of the scenario with an end time one above the safe range. -/
def farEndTournament : Tournament :=
  { scenarioTournament with endTime := 9007199254740992 }

/-- A quiet chain at 1010 s whose tournament list is `[farEndTournament]`. -/
def farEndEnv : Env :=
  { quietEnv 1010000 with onGetAllTournaments := fun _ => some [farEndTournament] }

/-- A quiet chain at 1010 s whose tournament list is `[scenarioTournament]`. -/
def scenarioEnv : Env :=
  { quietEnv 1010000 with onGetAllTournaments := fun _ => some [scenarioTournament] }

/-- Whether every `toNumber()` the loop body makes on the tournament succeeds. -/
def Tournament.convertible (t : Tournament) : Bool :=
  decide (t.id ≤ MAX_SAFE_INTEGER ∧ t.startTime ≤ MAX_SAFE_INTEGER ∧
    t.endTime ≤ MAX_SAFE_INTEGER ∧ t.currentPlayers ≤ MAX_SAFE_INTEGER ∧
    t.maxPlayers ≤ MAX_SAFE_INTEGER)

/-- One iteration of the loop: the `try` body on `t`, then `processed++`, or `errors++`
in the `catch`. -/
def iteration (env : Env) (cw : Counters × World) (t : Tournament) : Counters × World :=
  match (processTournament env t cw.2).1 with
  | .ok _ => ({ cw.1 with processed := cw.1.processed + 1 }, (processTournament env t cw.2).2)
  | .error _ => ({ cw.1 with errors := cw.1.errors + 1 }, (processTournament env t cw.2).2)

/-- A quiet chain at 1010 s on which the `getAllTournaments` read throws. -/
def downEnv : Env :=
  { quietEnv 1010000 with onGetAllTournaments := fun _ => none }

/-- A batch of three: tournaments #1 and #3 are the scenario tournament, #2 has an end
time the loop body cannot convert. -/
def batchOfThree : List Tournament :=
  [scenarioTournament, { farEndTournament with id := 2 }, { scenarioTournament with id := 3 }]

/-- A quiet chain at 1010 s whose tournament list is `batchOfThree`. -/
def batchEnv : Env :=
  { quietEnv 1010000 with onGetAllTournaments := fun _ => some batchOfThree }

/-- Tournament #4, Completed, and tournament #5, Canceled. -/
def settledTournaments : List Tournament :=
  [{ scenarioTournament with id := 4, status := 2 },
   { scenarioTournament with id := 5, status := 3 }]

/-- A quiet chain at 5000 s whose tournament list is `settledTournaments`. -/
def settledEnv : Env :=
  { quietEnv 5000000 with onGetAllTournaments := fun _ => some settledTournaments }

/-- Tournament #7 with its id replaced by one above the safe range. -/
def unsafeIdTournament : Tournament := { duoTournament with id := 9007199254740992 }

/-- A Registration tournament past its start time with two players of four and an id
one above the safe range. -/
def unsafeIdRegistration : Tournament :=
  { scenarioTournament with id := 9007199254740992, currentPlayers := 2 }

/-- A quiet chain at 1500 s on which every `submitScore` transaction fails. -/
def rejectingEnv : Env :=
  { quietEnv 1500000 with onSubmitScore := fun _ _ _ _ => false }

/-- A quiet chain at 1500 s on which the recorded score of every player is one above
the safe range. -/
def hugeScoreEnv : Env :=
  { quietEnv 1500000 with onGetPlayerScore := fun _ _ _ => some 9007199254740992 }

/-- A quiet chain at 1500 s on which the recorded score of every player is 5. -/
def scoredEnv : Env :=
  { quietEnv 1500000 with onGetPlayerScore := fun _ _ _ => some 5 }

/-! ## JavaScript numbers and the prize report of `finalizeTournament` -/

/-- A finite non-negative IEEE 754 double, the value `mantissa * 2 ^ exponent`: the
JavaScript numbers of the prize arithmetic. -/
structure Double where
  mantissa : Nat
  exponent : Int
  deriving DecidableEq, Repr

/-- Numerator of the exact value of a double over `Double.denominator`. -/
def Double.numerator (x : Double) : Nat := x.mantissa * 2 ^ x.exponent.toNat

/-- Denominator of the exact value of a double, a power of two. -/
def Double.denominator (x : Double) : Nat := 2 ^ (-x.exponent).toNat

/-- The position of the highest set bit of a positive number, `floor (log2 n)`, by
halving at most `fuel` times. -/
def floorLog2 : Nat → Nat → Nat
  | 0, _ => 0
  | fuel + 1, n => if n < 2 then 0 else floorLog2 fuel (n / 2) + 1

/-- The double nearest to `num / den`, ties to the even mantissa (53-bit mantissa,
subnormals below `2 ^ -1022`; for values below `2 ^ 1024`). It is the result of every
arithmetic operation and of reading a decimal literal or string. -/
def Double.nearest (num den : Nat) : Double :=
  if num = 0 then ⟨0, 0⟩
  else
    let e0 : Int := (floorLog2 num num : Int) - (floorLog2 den den : Int) - 52
    let q0 : Nat := (num * 2 ^ (-e0).toNat) / (den * 2 ^ e0.toNat)
    let e1 : Int := if q0 < 2 ^ 52 then e0 - 1 else e0
    let e : Int := if e1 < -1074 then -1074 else e1
    let n : Nat := num * 2 ^ (-e).toNat
    let d : Nat := den * 2 ^ e.toNat
    if 2 * (n % d) > d ∨ (2 * (n % d) = d ∧ (n / d) % 2 = 1) then ⟨n / d + 1, e⟩ else ⟨n / d, e⟩

/-- The product `a * b` of two doubles. -/
def Double.mul (a b : Double) : Double :=
  Double.nearest (a.numerator * b.numerator) (a.denominator * b.denominator)

/-- The quotient `a / b` of two doubles, `b` not zero. -/
def Double.div (a b : Double) : Double :=
  Double.nearest (a.numerator * b.denominator) (a.denominator * b.numerator)

/-- The sum `a + b` of two doubles. -/
def Double.add (a b : Double) : Double :=
  Double.nearest (a.numerator * b.denominator + b.numerator * a.denominator)
    (a.denominator * b.denominator)

/-- Whether two doubles have the same value, `a === b`. -/
def Double.same (a b : Double) : Bool :=
  decide (a.numerator * b.denominator = b.numerator * a.denominator)

/-- An amount as it is printed: the string `formatEther(totalPrizePool)`, exact, given by
the amount in wei; the output of `toFixed(4)` on a double below `10 ^ 21`, given in
ten-thousandths of an ether; or the output of `toFixed(4)` on a larger double, which is
the number converted to a string as it is. -/
inductive Figure
  | pool (wei : Nat)
  | fixed (tenThousandths : Nat)
  | number (x : Double)
  deriving DecidableEq, Repr

/-- The value of a printed amount, in wei (rounded down for a `number`). -/
def Figure.wei : Figure → Nat
  | .pool wei => wei
  | .fixed tenThousandths => tenThousandths * 100000000000000
  | .number x => x.numerator * 1000000000000000000 / x.denominator

/-- The method `toFixed(4)` on a double `x`: below `10 ^ 21` the integer `n` with
`n / 10000` nearest to the exact value of `x`, the larger one on a tie, printed with four
decimals; from `10 ^ 21` on the number itself. -/
def Double.toFixed4 (x : Double) : Figure :=
  if x.numerator < 1000000000000000000000 * x.denominator then
    .fixed ((2 * x.numerator * 10000 + x.denominator) / (2 * x.denominator))
  else .number x

/-- The prize pool in ether as a number, `parseFloat(ethers.utils.formatEther(totalPrizePool))`:
the double nearest to the amount in wei divided by `10 ^ 18`. -/
def prizePoolEther (totalPrizePool : Nat) : Double :=
  Double.nearest totalPrizePool 1000000000000000000

/-- The shares the report of `finalizeTournament` computes from the number of winners and
the prize pool in wei (`firstPrize`, `secondPrize`, `thirdPrize`); none for one winner,
where the pool itself is logged. -/
def computedShares (winners : Nat) (totalPrizePool : Nat) : List Double :=
  if winners = 1 then []
  else if winners = 2 then
    [(prizePoolEther totalPrizePool).mul (Double.nearest 7 10),
      (prizePoolEther totalPrizePool).mul (Double.nearest 3 10)]
  else if winners ≥ 3 then
    [(prizePoolEther totalPrizePool).mul (Double.nearest 5 10),
      (prizePoolEther totalPrizePool).mul (Double.nearest 3 10),
      (prizePoolEther totalPrizePool).mul (Double.nearest 2 10)]
  else []

/-- The prize lines the report logs, each with the percentage its text names and the
amount it prints: the pool as it is for one winner, the computed shares through
`toFixed(4)` otherwise. -/
def reportedShares (winners : Nat) (totalPrizePool : Nat) : List (Nat × Figure) :=
  if winners = 1 then [(100, .pool totalPrizePool)]
  else if winners = 2 then
    [(70, ((prizePoolEther totalPrizePool).mul (Double.nearest 7 10)).toFixed4),
      (30, ((prizePoolEther totalPrizePool).mul (Double.nearest 3 10)).toFixed4)]
  else if winners ≥ 3 then
    [(50, ((prizePoolEther totalPrizePool).mul (Double.nearest 5 10)).toFixed4),
      (30, ((prizePoolEther totalPrizePool).mul (Double.nearest 3 10)).toFixed4),
      (20, ((prizePoolEther totalPrizePool).mul (Double.nearest 2 10)).toFixed4)]
  else []

/-- The prize lines `finalizeTournament` logs after a successful finalisation, for the
winners read back and the tournament it was given. -/
def prizeReport (winners : List Address) (t : Tournament) : List (Nat × Figure) :=
  reportedShares winners.length t.totalPrizePool

/-- The sum of the amounts of a list of prize lines, in wei. -/
def reportedTotal (lines : List (Nat × Figure)) : Nat :=
  (lines.map (fun line => line.2.wei)).sum

/-- A chain at `nowMs` milliseconds on which every transaction fails. -/
def failingEnv (nowMs : Nat) : Env :=
  { quietEnv nowMs with
    onSubmitScore := fun _ _ _ _ => false
    onFinalizeTournament := fun _ _ => false
    onCancelTournament := fun _ _ => false }

/-! ## The server (`backend/server.js`) -/

/-- A value found in a JSON request body, or `undefined` for a field that is absent. -/
inductive JsValue
  | undefined
  | null
  | bool (b : Bool)
  | number (n : Int)
  | string (s : String)
  | object
  deriving DecidableEq, Repr

/-- The fields the endpoints destructure from `req.body`. -/
structure RequestBody where
  adminKey : JsValue
  tournamentId : JsValue
  playerAddress : JsValue
  score : JsValue
  version : JsValue
  addresses : JsValue
  deriving DecidableEq, Repr

/-- The value of `process.env.ADMIN_KEY`: a string, or `undefined` when not set. -/
def processEnvValue (configured : Option String) : JsValue :=
  match configured with
  | none => .undefined
  | some k => .string k

/-- The strict inequality `a !== b` on these values; an object differs from everything. -/
def strictNotEqual (a b : JsValue) : Bool :=
  match a, b with
  | .object, _ => true
  | _, .object => true
  | x, y => decide (x ≠ y)

/-- What an endpoint answers: the status code and the fields of the JSON body. -/
structure Response where
  status : Nat
  success : Option Bool
  error : Option String
  message : Option String
  deriving DecidableEq, Repr

/-- A call the server makes on its own contract handle. -/
inductive ServerCall
  | submitScore (tournamentId playerAddress score : JsValue)
  | finalizeTournament (tournamentId : JsValue)
  | getTournamentDetails (tournamentId : JsValue)
  deriving DecidableEq, Repr

/-- The outside world of the server: the chain as the manager sees it, the configured
admin key, and the answers to the server's own calls and file writes. -/
structure ServerEnv where
  chain : Env
  adminKey : Option String
  serverInitSucceeds : Bool
  onServerSubmitScore : List ServerCall → JsValue → JsValue → JsValue → Bool
  onServerFinalize : List ServerCall → JsValue → Bool
  onGetTournamentDetails : List ServerCall → JsValue → Option Tournament
  /-- Whether the `k`-th `fs.writeFileSync` succeeds. -/
  writeFileSucceeds : Nat → Bool

/-- The state of the server process. A pass launched by the scheduler is taken to run to
its end when it is launched. -/
structure Server where
  /-- State of the `tournamentManager` module, with the chain calls of its passes. -/
  manager : World
  /-- Whether the `tournamentContract` of `server.js` is set. -/
  contractReady : Bool
  /-- Calls made through the handle of `server.js`, oldest first. -/
  calls : List ServerCall
  /-- Number of `manageTournaments()` invocations so far. -/
  passes : Nat
  /-- The `(version, addresses)` of every `fs.writeFileSync` attempted. -/
  fileWrites : List (JsValue × JsValue)
  /-- The variable `tournamentManagerInterval`: the handle of the last timer armed. -/
  interval : Option Nat
  /-- The interval timers armed and not cleared. -/
  timers : List Nat
  /-- The handle the next `setInterval` returns. -/
  nextTimer : Nat
  deriving DecidableEq, Repr

/-- The invocation `manageTournaments()` as the server sees it: the promise of a pass
never rejects, whatever the outcome of the pass. -/
def awaitManageTournaments (env : ServerEnv) (s : Server) : Except JsError Unit × Server :=
  (.ok (), { s with manager := (manageTournaments env.chain s.manager).2,
                    passes := s.passes + 1 })

/-- The answer `res.status(403).json({ error: "Unauthorized" })`. -/
def unauthorized : Response := ⟨403, none, some "Unauthorized", none⟩

/-- The answer `res.status(500).json({ error: "Contract not initialized" })`. -/
def notInitialized : Response := ⟨500, none, some "Contract not initialized", none⟩

/-- Handler of `POST /api/submit-score`. -/
def postSubmitScore (env : ServerEnv) (body : RequestBody) (s : Server) : Response × Server :=
  if strictNotEqual body.adminKey (processEnvValue env.adminKey) then (unauthorized, s)
  else if !s.contractReady then (notInitialized, s)
  else if env.onServerSubmitScore s.calls body.tournamentId body.playerAddress body.score then
    (⟨200, some true, none, some "Score submitted successfully"⟩,
      { s with calls := s.calls ++
          [.submitScore body.tournamentId body.playerAddress body.score] })
  else
    (⟨500, none, some "Failed to submit score", none⟩,
      { s with calls := s.calls ++
          [.submitScore body.tournamentId body.playerAddress body.score] })

/-- Handler of `POST /api/finalize-tournament`. -/
def postFinalizeTournament (env : ServerEnv) (body : RequestBody) (s : Server) :
    Response × Server :=
  if strictNotEqual body.adminKey (processEnvValue env.adminKey) then (unauthorized, s)
  else if !s.contractReady then (notInitialized, s)
  else if env.onServerFinalize s.calls body.tournamentId then
    (⟨200, some true, none, some "Tournament finalized successfully"⟩,
      { s with calls := s.calls ++ [.finalizeTournament body.tournamentId] })
  else
    (⟨500, none, some "Failed to finalize tournament", none⟩,
      { s with calls := s.calls ++ [.finalizeTournament body.tournamentId] })

/-- Handler of `POST /api/manage-tournaments`. -/
def postManageTournaments (env : ServerEnv) (body : RequestBody) (s : Server) :
    Response × Server :=
  if strictNotEqual body.adminKey (processEnvValue env.adminKey) then (unauthorized, s)
  else
    match (awaitManageTournaments env s).1 with
    | .ok _ =>
      (⟨200, some true, none, some "Tournament management task executed successfully"⟩,
        (awaitManageTournaments env s).2)
    | .error _ =>
      (⟨500, none, some "Failed to run tournament manager", none⟩,
        (awaitManageTournaments env s).2)

/-- Handler of `POST /api/simulate-tournament`. -/
def postSimulateTournament (env : ServerEnv) (body : RequestBody) (s : Server) :
    Response × Server :=
  if strictNotEqual body.adminKey (processEnvValue env.adminKey) then (unauthorized, s)
  else if !s.contractReady then (notInitialized, s)
  else
    let s1 := { s with calls := s.calls ++ [.getTournamentDetails body.tournamentId] }
    match env.onGetTournamentDetails s.calls body.tournamentId with
    | none => (⟨500, none, some "Failed to simulate tournament", none⟩, s1)
    | some tournament =>
      match toNumber tournament.id with
      | .error _ => (⟨500, none, some "Failed to simulate tournament", none⟩, s1)
      | .ok tournamentId =>
        if tournamentId = 0 then (⟨404, none, some "Tournament not found", none⟩, s1)
        else
          let s2 := { s1 with manager := (simulateGameplay env.chain tournament s1.manager).2 }
          match (simulateGameplay env.chain tournament s1.manager).1 with
          | .ok true =>
            (⟨200, some true, none, some "Successfully simulated scores for tournament"⟩, s2)
          | .ok false =>
            (⟨400, some false, none,
              some ("Could not simulate scores. " ++
                "Tournament may not be in progress or already has scores.")⟩, s2)
          | .error _ => (⟨500, none, some "Failed to simulate tournament", none⟩, s2)

/-- Handler of `POST /api/update-contract-addresses`. -/
def postUpdateContractAddresses (env : ServerEnv) (body : RequestBody) (s : Server) :
    Response × Server :=
  if strictNotEqual body.adminKey (processEnvValue env.adminKey) then
    (⟨403, some false, some "Unauthorized", none⟩, s)
  else if env.writeFileSucceeds s.fileWrites.length then
    (⟨200, some true, none, some "Contract addresses updated successfully"⟩,
      { s with fileWrites := s.fileWrites ++ [(body.version, body.addresses)] })
  else
    (⟨500, some false, some "Failed to update contract addresses", none⟩,
      { s with fileWrites := s.fileWrites ++ [(body.version, body.addresses)] })

/-- The admin endpoints. -/
inductive Endpoint
  | submitScore
  | finalizeTournament
  | manageTournaments
  | simulateTournament
  | updateContractAddresses
  deriving DecidableEq, Repr

/-- The handler registered for each admin endpoint. -/
def handle (env : ServerEnv) : Endpoint → RequestBody → Server → Response × Server
  | .submitScore => postSubmitScore env
  | .finalizeTournament => postFinalizeTournament env
  | .manageTournaments => postManageTournaments env
  | .simulateTournament => postSimulateTournament env
  | .updateContractAddresses => postUpdateContractAddresses env

/-- Source function `startTournamentManager()`: launches a pass, then arms an interval
timer and stores its handle in `tournamentManagerInterval`. -/
def startTournamentManager (env : ServerEnv) (s : Server) : Server :=
  { (awaitManageTournaments env s).2 with
    interval := some s.nextTimer
    timers := s.timers ++ [s.nextTimer]
    nextTimer := s.nextTimer + 1 }

/-- Source function `stopTournamentManager()`: clears the timer whose handle is stored. -/
def stopTournamentManager (s : Server) : Server :=
  match s.interval with
  | some timer => { s with timers := s.timers.filter (fun k => k ≠ timer) }
  | none => s

/-- The callback of an interval timer: launches a pass, when the timer is still armed. -/
def timerFires (env : ServerEnv) (timer : Nat) (s : Server) : Server :=
  if timer ∈ s.timers then (awaitManageTournaments env s).2 else s

/-- The function `initializeContract` of `server.js`: sets the handle of the server when
the provider, address, wallet and ABI can be built; it has no `await` and never throws. -/
def serverInitializeContract (env : ServerEnv) (s : Server) : Server :=
  if env.serverInitSucceeds then { s with contractReady := true } else s

/-- The callback of `app.listen`: initialises the contract, then starts the scheduler. -/
def onListen (env : ServerEnv) (s : Server) : Server :=
  startTournamentManager env (serverInitializeContract env s)

/-- The server process before `app.listen`: nothing initialised, nothing armed. -/
def initialServer : Server := ⟨freshWorld, false, [], 0, [], none, [], 0⟩

/-- A server environment over a quiet chain at 1010 s with admin key `"secret"`. -/
def quietServerEnv : ServerEnv :=
  { chain := quietEnv 1010000, adminKey := some "secret", serverInitSucceeds := true,
    onServerSubmitScore := fun _ _ _ _ => true, onServerFinalize := fun _ _ => true,
    onGetTournamentDetails := fun _ _ => some duoTournament,
    writeFileSucceeds := fun _ => true }

/-- A request body carrying only the given admin key. -/
def bodyWithKey (key : JsValue) : RequestBody :=
  ⟨key, .undefined, .undefined, .undefined, .undefined, .undefined⟩

/-- The quiet server environment over a chain on which `initializeContract` of the
manager fails. -/
def initFailingServerEnv : ServerEnv :=
  { quietServerEnv with chain := { quietEnv 1010000 with initSucceeds := false } }

/-- The quiet server environment over a chain on which the list read throws. -/
def fetchFailingServerEnv : ServerEnv :=
  { quietServerEnv with chain := downEnv }

/-- A quiet chain at exactly 2000 s whose tournament list is `[duoTournament]`, the
tournament that ends at 2000 s. -/
def boundaryEnv : Env :=
  { quietEnv 2000000 with onGetAllTournaments := fun _ => some [duoTournament] }

/-- A quiet chain at 1500 s on which the `getPlayerScore` read throws. -/
def probeFailingEnv : Env :=
  { quietEnv 1500000 with onGetPlayerScore := fun _ _ _ => none }

/-- A quiet chain at 1500 s whose draws alternate between `1/900` (base score 101) and
`0` (multiplier 0.5). -/
def halfPointEnv : Env :=
  { quietEnv 1500000 with
    random := fun k => if k % 2 = 0 then 1 / 900 else 0
    random_range := fun k => by
      by_cases h : k % 2 = 0
      · simp only [h, if_true]
        constructor <;> norm_num
      · simp only [h, if_false]
        constructor <;> norm_num }

/-- Tournament #7 with game type "P2W". -/
def payToWinTournament : Tournament := { duoTournament with gameType := "P2W" }

/-- What happens to the running server: an interval timer fires, an admin request
arrives, or the shutdown handler calls `stopTournamentManager()`. -/
inductive ServerEvent
  | timer (handle : Nat)
  | request (endpoint : Endpoint) (body : RequestBody)
  | stop
  deriving DecidableEq, Repr

/-- The effect of one event on the server. -/
def serverStep (env : ServerEnv) (s : Server) : ServerEvent → Server
  | .timer k => timerFires env k s
  | .request endpoint body => (handle env endpoint body s).2
  | .stop => stopTournamentManager s

/-- The server after `app.listen` and the given events, in order. -/
def runServer (env : ServerEnv) (events : List ServerEvent) : Server :=
  events.foldl (serverStep env) (onListen env initialServer)

/-- The quiet server environment with `ADMIN_KEY` not set. -/
def openServerEnv : ServerEnv := { quietServerEnv with adminKey := none }

/-! ## The frontend (`frontend/src`) -/

/-- The reward shown in one row of the winners table of `TournamentDetails`, for the
prize pool in wei and the index of the row:
`((parseFloat(tournament.prizePool) * prizePercentage) / 100).toFixed(4)`. -/
def shownReward (totalPrizePool : Nat) (index : Nat) : Figure :=
  let percentages : List Nat := [50, 30, 20]
  let prizePercentage : Nat :=
    if index < percentages.length then percentages.getD index 0 else 0
  (((prizePoolEther totalPrizePool).mul (Double.nearest prizePercentage 1)).div
    (Double.nearest 100 1)).toFixed4

/-- The reward column of the winners table, `winners.map((winner, index) => ...)`. -/
def winnersTable (winners : List Address) (totalPrizePool : Nat) : List Figure :=
  (List.range winners.length).map (shownReward totalPrizePool)

/-- Whether a value is falsy, as `!value` tests it. -/
def JsValue.falsy : JsValue → Bool
  | .undefined => true
  | .null => true
  | .bool b => !b
  | .number n => decide (n = 0)
  | .string s => decide (s = "")
  | .object => false

/-- The table `CONTRACT_ADDRESSES`: for a chain id, `none` when the table has no entry
for it (or a falsy one), otherwise the properties of the entry by contract name
(`undefined` for a property the entry does not have). -/
abbrev AddressTable := String → Option (String → JsValue)

/-- The `try` block of the backend `getContractAddress(chainId)` (the same text in
`tournamentManager.js` and in `server.js`): returns the address or throws. -/
def getContractAddressBody (table : AddressTable) (chainId : String) : Except String JsValue :=
  match table chainId with
  | none => .error "No contract addresses found for chain ID"
  | some entry =>
    if (entry "TournamentPlatform").falsy || decide (entry "TournamentPlatform" = .null) then
      .error "Tournament Platform contract address not configured for chain ID"
    else .ok (entry "TournamentPlatform")

/-- The backend `getContractAddress(chainId)`: the `catch` handler logs the error and
returns `null`, here `none`. -/
def getContractAddress (table : AddressTable) (chainId : String) : Option JsValue :=
  match getContractAddressBody table chainId with
  | .ok address => some address
  | .error _ => none

/-- The frontend `getContractAddress(chainId, contractName)` of `config/contracts.js`. -/
def Frontend.getContractAddress (table : AddressTable) (chainId contractName : String) :
    Except String JsValue :=
  match table chainId with
  | none => .error "No contract addresses configured for chain ID"
  | some entry =>
    if (entry contractName).falsy || decide (entry contractName = .null) then
      .error "No address configured on chain ID"
    else .ok (entry contractName)

/-- The address table of the repository's default configuration. -/
def defaultTable : AddressTable := fun chainId =>
  if chainId = "31337" then
    some (fun name => if name = "TournamentPlatform" then
      .string "0xe7f1725E7734CE288F8367e1Bb143E90bb3F0512" else .undefined)
  else if chainId = "11155111" then
    some (fun name => if name = "TournamentPlatform" then
      .string "0x4Ec3782816801C121CF0ce71D113bb67b7FE304D" else .undefined)
  else if chainId = "1" ∨ chainId = "5" ∨ chainId = "1337" then
    some (fun name => if name = "TournamentPlatform" then .null else .undefined)
  else none

/-- Whether a character is in the class `[a-fA-F0-9]`. -/
def isHexDigit (c : Char) : Bool :=
  (decide ('a' ≤ c) && decide (c ≤ 'f')) || (decide ('A' ≤ c) && decide (c ≤ 'F')) ||
    (decide ('0' ≤ c) && decide (c ≤ '9'))

/-- Whether a string matches `/^0x[a-fA-F0-9]{40}$/`. -/
def matchesAddress (s : String) : Bool :=
  match s.data with
  | '0' :: 'x' :: rest => decide (rest.length = 40) && rest.all isHexDigit
  | _ => false

/-- The conversion `String(value)`; an object is taken to be a plain object. -/
def jsString : JsValue → String
  | .undefined => "undefined"
  | .null => "null"
  | .bool b => if b then "true" else "false"
  | .number n => toString n
  | .string s => s
  | .object => "[object Object]"

/-- Source function `formatAddress(address)` of `utils/formatAddress.js`; `slice(0, 6)`
is the first six characters and `slice(-4)` the last four. -/
def formatAddress (address : JsValue) : String :=
  if address.falsy then ""
  else if !matchesAddress (jsString address) then jsString address
  else String.mk ((jsString address).data.take 6) ++ "..." ++
    String.mk ((jsString address).data.drop ((jsString address).data.length - 4))

/-! ## Shared lemmas -/

theorem toNumber_ok_iff (b : Nat) (n : Nat) :
    toNumber b = .ok n ↔ b ≤ MAX_SAFE_INTEGER ∧ n = b := by
  unfold toNumber
  split <;> rename_i h
  · constructor
    · intro h1
      injection h1 with h2
      exact ⟨h, h2.symm⟩
    · rintro ⟨_, rfl⟩
      rfl
  · constructor
    · intro h1
      cases h1
    · rintro ⟨h1, _⟩
      exact absurd h1 h

theorem toNumber_of_le {b : Nat} (h : b ≤ MAX_SAFE_INTEGER) : toNumber b = .ok b :=
  (toNumber_ok_iff b b).2 ⟨h, rfl⟩

theorem toNumber_of_gt {b : Nat} (h : MAX_SAFE_INTEGER < b) :
    toNumber b = .error .overflow := by
  unfold toNumber
  rw [if_neg (Nat.not_le.2 h)]

/-- The loop body is the reading followed by the selected branch. -/
theorem processTournament_of_read {env : Env} {t : Tournament} {w : World} {r : Reading}
    (hread : (readTournament env t w).1 = .ok r) :
    processTournament env t w = runAction env t (selectAction r) (readTournament env t w).2 := by
  unfold processTournament
  rw [hread]

theorem readTournament_calls (env : Env) (t : Tournament) (w : World) :
    (readTournament env t w).2.calls = w.calls ∧
    (readTournament env t w).2.contractReady = w.contractReady := by
  unfold readTournament
  repeat' split
  all_goals simp [currentTimeSeconds, dateNowMs]

theorem generateRandomScore_world (env : Env) (g : String) (w : World) :
    (generateRandomScore env g w).2.calls = w.calls ∧
    (generateRandomScore env g w).2.contractReady = w.contractReady := by
  unfold generateRandomScore
  simp only []
  split_ifs <;> simp [mathRandom]

theorem submitScores_calls (env : Env) (id : Nat) (g : String) (ps : List Address) (w : World) :
    (submitScores env id g ps w).contractReady = w.contractReady ∧
    ∃ scores : List ℚ, scores.length = ps.length ∧
      (submitScores env id g ps w).calls =
        w.calls ++ (if w.contractReady then
          List.zipWith (fun p s => Call.submitScore id p s) ps scores else []) := by
  induction ps generalizing w with
  | nil => exact ⟨rfl, [], rfl, by simp [submitScores]⟩
  | cons p rest ih =>
    obtain ⟨hc, hr⟩ := generateRandomScore_world env g w
    simp only [submitScores]
    obtain ⟨ihr, scores, hlen, hcalls⟩ :=
      ih (callSubmitScore env id p (generateRandomScore env g w).1 (generateRandomScore env g w).2).2
    rw [ihr, hcalls]
    unfold callSubmitScore
    cases hw : w.contractReady
    · rw [hw] at hr
      refine ⟨by simp [hr], (0 : ℚ) :: scores, by simp [hlen], ?_⟩
      simp [hc, hr]
    · rw [hw] at hr
      refine ⟨by simp [World.issue, hr], (generateRandomScore env g w).1 :: scores,
        by simp [hlen], ?_⟩
      simp [World.issue, hc, hr]

theorem catchLoggingId_world (t : Tournament) (w : World) : (catchLoggingId t w).2 = w := by
  unfold catchLoggingId
  split <;> rfl

theorem currentTimeSeconds_calls (env : Env) (w : World) :
    (currentTimeSeconds env w).2.calls = w.calls ∧
    (currentTimeSeconds env w).2.contractReady = w.contractReady := ⟨rfl, rfl⟩

theorem cancelUnfilledTournament_calls (env : Env) (t : Tournament) (w : World) :
    (cancelUnfilledTournament env t w).2.calls = w.calls ∨
    (cancelUnfilledTournament env t w).2.calls = w.calls ++ [.cancelTournament t.id] := by
  unfold cancelUnfilledTournament
  split
  · left; rw [catchLoggingId_world]
  · rename_i tournamentId hid
    have hid2 := ((toNumber_ok_iff _ _).1 hid).2
    subst hid2
    split
    · left; rfl
    · simp only []
      split
      · left; rw [catchLoggingId_world]; rfl
      · split
        · split
          · left; rw [catchLoggingId_world]; rfl
          · split
            · left; rw [catchLoggingId_world]; rfl
            · split
              · left; rfl
              · split
                · unfold callCancelTournament
                  split
                  · right; rfl
                  · left; rfl
                · left; rfl
        · left; rfl

theorem finalizeTournament_calls (env : Env) (t : Tournament) (w : World) :
    (finalizeTournament env t w).2.calls = w.calls ∨
    (finalizeTournament env t w).2.calls = w.calls ++ [.finalizeTournament t.id] ∨
    (finalizeTournament env t w).2.calls =
      w.calls ++ [.finalizeTournament t.id, .getTournamentWinners t.id] := by
  unfold finalizeTournament
  split
  · left; rw [catchLoggingId_world]
  · rename_i tournamentId hid
    have hid2 := ((toNumber_ok_iff _ _).1 hid).2
    subst hid2
    split
    · left; rfl
    · simp only []
      split
      · left; rw [catchLoggingId_world]; rfl
      · split
        · left; rfl
        · unfold callFinalizeTournament callGetTournamentWinners
          cases hw : w.contractReady
          · simp [currentTimeSeconds, dateNowMs, hw, catchLoggingId_world]
          · simp only [currentTimeSeconds, dateNowMs, hw, World.issue, if_true]
            split
            · right; right; simp
            · right; left; rw [catchLoggingId_world]

theorem simulateGameplay_calls (env : Env) (t : Tournament) (w : World) :
    ∃ new : List Call, (simulateGameplay env t w).2.calls = w.calls ++ new ∧
      (writes new = [] ∨
        ∃ scores : List ℚ, scores.length = t.players.length ∧
          writes new = List.zipWith (fun p s => Call.submitScore t.id p s) t.players scores) := by
  have hzip : ∀ (id : Nat) (ps : List Address) (scores : List ℚ),
      writes (List.zipWith (fun p s => Call.submitScore id p s) ps scores) =
        List.zipWith (fun p s => Call.submitScore id p s) ps scores := by
    intro id ps
    induction ps with
    | nil => intro scores; simp [writes]
    | cons p rest ih =>
      intro scores
      cases scores with
      | nil => simp [writes]
      | cons s ss =>
        have := ih ss
        simp only [writes] at this
        simp [writes, Call.isWrite, this]
  have hsub : ∀ (pre : List Call) (w1 : World), w1.calls = w.calls ++ pre → writes pre = [] →
      ∃ new : List Call,
        (submitScores env t.id t.gameType t.players w1).calls = w.calls ++ new ∧
        (writes new = [] ∨
          ∃ scores : List ℚ, scores.length = t.players.length ∧
            writes new =
              List.zipWith (fun p s => Call.submitScore t.id p s) t.players scores) := by
    intro pre w1 hpre hw
    obtain ⟨_, scores, hlen, hcalls⟩ := submitScores_calls env t.id t.gameType t.players w1
    rw [hcalls, hpre]
    cases w1.contractReady
    · exact ⟨pre, by simp, Or.inl hw⟩
    · refine ⟨pre ++ List.zipWith (fun p s => Call.submitScore t.id p s) t.players scores,
        by simp, Or.inr ⟨scores, hlen, ?_⟩⟩
      have h2 := hzip t.id t.players scores
      simp only [writes] at h2 hw ⊢
      rw [List.filter_append, hw, h2]
      rfl
  have hprobe : ∀ first, ∃ pre : List Call,
      (callGetPlayerScore env t.id first w).2.calls = w.calls ++ pre ∧ writes pre = [] := by
    intro first
    unfold callGetPlayerScore
    split
    · exact ⟨[.getPlayerScore t.id first], rfl, rfl⟩
    · exact ⟨[], by simp, rfl⟩
  unfold simulateGameplay
  split
  · exact ⟨[], by simp, Or.inl rfl⟩
  · rename_i tournamentId hid
    have hid2 := ((toNumber_ok_iff _ _).1 hid).2
    subst hid2
    split
    · exact ⟨[], by simp, Or.inl rfl⟩
    · split
      · rename_i hnil
        exact hsub [] w (by simp) rfl
      · rename_i first rest hcons
        obtain ⟨pre, hpre, hw⟩ := hprobe first
        simp only []
        split
        · exact hsub pre _ hpre hw
        · split
          · exact hsub pre _ hpre hw
          · split
            · exact ⟨pre, hpre, Or.inl hw⟩
            · exact hsub pre _ hpre hw

/-! ## The branch selection of the loop (C1, C2, C3) -/

/-- C1: in the loop of `manageTournaments`, for a tournament read with status
Registration (0) and `now >= startTime`, the cancel branch is selected exactly when
`currentPlayers < 2`: with one player the body runs `cancelUnfilledTournament`, with two
or more it takes no action (no effect, `actionTaken` stays `false`). -/
theorem registration_cancel_threshold (env : Env) (t : Tournament) (w : World) (r : Reading)
    (hread : (readTournament env t w).1 = .ok r)
    (hstatus : r.status = 0) (hstart : r.currentTime ≥ r.startTime) :
    (selectAction r = .cancel ↔ r.currentPlayers < 2) ∧
    (r.currentPlayers = 1 →
      processTournament env t w = cancelUnfilledTournament env t (readTournament env t w).2) ∧
    (r.currentPlayers ≥ 2 →
      selectAction r = .noAction ∧
      processTournament env t w = (.ok false, (readTournament env t w).2)) := by
  have hsel : selectAction r = if r.currentPlayers < 2 then .cancel else .noAction := by
    unfold selectAction
    rw [if_pos ⟨hstatus, hstart⟩]
  refine ⟨?_, ?_, ?_⟩
  · rw [hsel]
    split <;> simp_all
  · intro h1
    rw [processTournament_of_read hread, hsel, if_pos (by omega)]
    rfl
  · intro h2
    have h3 : selectAction r = .noAction := by
      rw [hsel, if_neg (by omega)]
    refine ⟨h3, ?_⟩
    rw [processTournament_of_read hread, h3]
    rfl

/-- C1 at the scenario tournament (one player, start time 1000 s) with the clock at 1010 s. -/
theorem registration_cancel_threshold_witness :
    (readTournament (quietEnv 1010000) scenarioTournament readyWorld).1 =
      .ok ⟨1, 0, 1010, 1000, 2000, 1, 4⟩ ∧
    processTournament (quietEnv 1010000) scenarioTournament readyWorld =
      cancelUnfilledTournament (quietEnv 1010000) scenarioTournament
        (readTournament (quietEnv 1010000) scenarioTournament readyWorld).2 :=
  ⟨rfl, (registration_cancel_threshold (quietEnv 1010000) scenarioTournament readyWorld
    ⟨1, 0, 1010, 1000, 2000, 1, 4⟩ rfl rfl (by decide)).2.1 rfl⟩

/-- C2: for a tournament read with status InProgress (1), the loop selects the finalize
branch when `now >= endTime` (so also at `now = endTime`) and the simulate branch when
`now < endTime` (so also at `now = endTime - 1`); the body then runs the matching
executor. -/
theorem inProgress_finalize_boundary (env : Env) (t : Tournament) (w : World) (r : Reading)
    (hread : (readTournament env t w).1 = .ok r) (hstatus : r.status = 1) :
    (r.currentTime ≥ r.endTime →
      selectAction r = .finalize ∧
      processTournament env t w = finalizeTournament env t (readTournament env t w).2) ∧
    (r.currentTime < r.endTime →
      selectAction r = .simulate ∧
      processTournament env t w = simulateGameplay env t (readTournament env t w).2) ∧
    (r.currentTime = r.endTime → selectAction r = .finalize) ∧
    (r.currentTime + 1 = r.endTime → selectAction r = .simulate) := by
  have hfin : r.currentTime ≥ r.endTime → selectAction r = .finalize := by
    intro h
    unfold selectAction
    rw [if_neg (by omega), if_neg (by omega), if_pos ⟨hstatus, h⟩]
  have hsim : r.currentTime < r.endTime → selectAction r = .simulate := by
    intro h
    unfold selectAction
    rw [if_neg (by omega), if_pos ⟨hstatus, h⟩]
  refine ⟨?_, ?_, ?_, ?_⟩
  · intro h
    refine ⟨hfin h, ?_⟩
    rw [processTournament_of_read hread, hfin h]
    rfl
  · intro h
    refine ⟨hsim h, ?_⟩
    rw [processTournament_of_read hread, hsim h]
    rfl
  · intro h
    exact hfin (by omega)
  · intro h
    exact hsim (by omega)

/-- C2 at tournament #7 (end time 2000 s) with the clock at exactly 2000 s. -/
theorem inProgress_finalize_boundary_witness :
    (readTournament (quietEnv 2000000) duoTournament readyWorld).1 =
      .ok ⟨7, 1, 2000, 1000, 2000, 2, 2⟩ ∧
    selectAction ⟨7, 1, 2000, 1000, 2000, 2, 2⟩ = .finalize ∧
    processTournament (quietEnv 2000000) duoTournament readyWorld =
      finalizeTournament (quietEnv 2000000) duoTournament
        (readTournament (quietEnv 2000000) duoTournament readyWorld).2 :=
  ⟨rfl, (inProgress_finalize_boundary (quietEnv 2000000) duoTournament readyWorld
    ⟨7, 1, 2000, 1000, 2000, 2, 2⟩ rfl rfl).1 (by decide)⟩

/-- C3: for every status value and every `now`, `startTime`, `endTime`, `currentPlayers`
and `maxPlayers`, the three tested conditions of the `if`/`else` chain are pairwise
exclusive, and the chain selects one action, determined by them: cancel or no-action
under the first (by the player count), simulate under the second, finalize under the
third, no-action when none holds. -/
theorem selectAction_total_exclusive (r : Reading) :
    ¬ ((r.status = 0 ∧ r.currentTime ≥ r.startTime) ∧ (r.status = 1 ∧ r.currentTime < r.endTime)) ∧
    ¬ ((r.status = 0 ∧ r.currentTime ≥ r.startTime) ∧ (r.status = 1 ∧ r.currentTime ≥ r.endTime)) ∧
    ¬ ((r.status = 1 ∧ r.currentTime < r.endTime) ∧ (r.status = 1 ∧ r.currentTime ≥ r.endTime)) ∧
    (∃! a : Action, selectAction r = a) ∧
    (selectAction r = .cancel ↔
      (r.status = 0 ∧ r.currentTime ≥ r.startTime) ∧ r.currentPlayers < 2) ∧
    (selectAction r = .simulate ↔ (r.status = 1 ∧ r.currentTime < r.endTime)) ∧
    (selectAction r = .finalize ↔ (r.status = 1 ∧ r.currentTime ≥ r.endTime)) ∧
    (selectAction r = .noAction ↔
      ((r.status = 0 ∧ r.currentTime ≥ r.startTime) ∧ r.currentPlayers ≥ 2) ∨
      (¬ (r.status = 0 ∧ r.currentTime ≥ r.startTime) ∧
        ¬ (r.status = 1 ∧ r.currentTime < r.endTime) ∧
        ¬ (r.status = 1 ∧ r.currentTime ≥ r.endTime))) := by
  refine ⟨by omega, by omega, by omega, ⟨selectAction r, rfl, fun a h => h.symm⟩, ?_, ?_, ?_, ?_⟩
  all_goals
    unfold selectAction
    split_ifs <;> simp <;> omega

/-! ## Writes per tournament (C4) -/

/-- C4 fails as stated: a pass over the single InProgress tournament #7, whose roster has
two players, issues two transactions for it (one `submitScore` per player). -/
theorem one_write_per_tournament_counterexample :
    (writes (manageTournaments duoEnv freshWorld).2.calls).map Call.tournament =
      [some 7, some 7] ∧
    ¬ (writes (manageTournaments duoEnv freshWorld).2.calls).length ≤ 1 := by
  decide

/-- C4, amended: one iteration of the loop (one entry of the fetched list) only appends
calls, and its transactions are either none, or the single `cancelTournament(id)`, or the
single `finalizeTournament(id)`, or `submitScore(id, player, score)` once per player of
the roster, in roster order. -/
theorem writes_per_tournament (env : Env) (t : Tournament) (w : World) :
    ∃ new : List Call, (processTournament env t w).2.calls = w.calls ++ new ∧
      (writes new = [] ∨
        writes new = [.cancelTournament t.id] ∨
        writes new = [.finalizeTournament t.id] ∨
        ∃ scores : List ℚ, scores.length = t.players.length ∧
          writes new = List.zipWith (fun p s => Call.submitScore t.id p s) t.players scores) := by
  obtain ⟨hrc, _⟩ := readTournament_calls env t w
  unfold processTournament
  split
  · exact ⟨[], by simp [hrc], Or.inl rfl⟩
  · rename_i r _
    cases selectAction r with
    | cancel =>
      rcases cancelUnfilledTournament_calls env t (readTournament env t w).2 with h | h
      · exact ⟨[], by simp [runAction, h, hrc], Or.inl rfl⟩
      · exact ⟨[.cancelTournament t.id], by simp [runAction, h, hrc], Or.inr (Or.inl rfl)⟩
    | simulate =>
      obtain ⟨new, h, hw⟩ := simulateGameplay_calls env t (readTournament env t w).2
      refine ⟨new, by simp [runAction, h, hrc], ?_⟩
      rcases hw with hw | hw
      · exact Or.inl hw
      · exact Or.inr (Or.inr (Or.inr hw))
    | finalize =>
      rcases finalizeTournament_calls env t (readTournament env t w).2 with h | h | h
      · exact ⟨[], by simp [runAction, h, hrc], Or.inl rfl⟩
      · exact ⟨[.finalizeTournament t.id], by simp [runAction, h, hrc],
          Or.inr (Or.inr (Or.inl rfl))⟩
      · exact ⟨[.finalizeTournament t.id, .getTournamentWinners t.id],
          by simp [runAction, h, hrc], Or.inr (Or.inr (Or.inl rfl))⟩
    | noAction => exact ⟨[], by simp [runAction, hrc], Or.inl rfl⟩

/-! ## The pass (C5 to C8) and the executors (C9, C10) -/

theorem manageTournaments_of_fetch (env : Env) (w : World) (ts : List Tournament)
    (hready : w.contractReady = true ∨ env.initSucceeds = true)
    (hfetch : env.onGetAllTournaments w.calls = some ts) (hne : ts ≠ []) :
    manageTournaments env w =
      (.completed (processAll env ts ⟨0, 0⟩ (worldAfterFetch w)).1,
        (dateNowMs env (processAll env ts ⟨0, 0⟩ (worldAfterFetch w)).2).2) := by
  have hlen : ¬ ts.length = 0 := by
    intro h
    exact hne (List.length_eq_zero.1 h)
  unfold manageTournaments worldAfterFetch
  cases hw : w.contractReady
  · rcases hready with h | h
    · rw [hw] at h; cases h
    · simp [dateNowMs, initializeContract, fetchAllTournaments, World.issue, hw, h, hfetch, hlen]
  · simp [dateNowMs, fetchAllTournaments, World.issue, hw, hfetch, hlen]

theorem manageTournaments_fetch_fails (env : Env) (w : World)
    (hfetch : env.onGetAllTournaments w.calls = none) :
    ((manageTournaments env w).1 = .fatal ∧ (manageTournaments env w).2.calls = w.calls) ∨
    ((manageTournaments env w).1 = .nothingToManage ∧
      (manageTournaments env w).2.calls = w.calls ++ [.getAllTournaments]) := by
  unfold manageTournaments
  cases hw : w.contractReady
  · cases hi : env.initSucceeds
    · left
      simp [dateNowMs, initializeContract, hw, hi]
    · right
      simp [dateNowMs, initializeContract, fetchAllTournaments, World.issue, hw, hi, hfetch]
  · right
    simp [dateNowMs, fetchAllTournaments, World.issue, hw, hfetch]

theorem currentTime_lt_safe (env : Env) (w : World) :
    (currentTimeSeconds env w).1 ≤ MAX_SAFE_INTEGER := by
  have h := env.dateNow_le w.clockReads
  unfold MAX_TIME_VALUE at h
  unfold currentTimeSeconds dateNowMs MAX_SAFE_INTEGER
  simp only []
  omega

/-- C5 fails as stated: the fetched list holds the single Registration tournament #1, past
its start time with one player, yet the pass issues no transaction, because the end time
does not convert and the loop body throws; the tournament is counted as an error. -/
theorem single_cancel_counterexample :
    farEndTournament.status = 0 ∧
    (∀ k, farEndTournament.startTime ≤ farEndEnv.dateNow k / 1000) ∧
    farEndTournament.currentPlayers < 2 ∧
    farEndEnv.onGetAllTournaments freshWorld.calls = some [farEndTournament] ∧
    writes (manageTournaments farEndEnv freshWorld).2.calls = [] ∧
    (manageTournaments farEndEnv freshWorld).1 = .completed ⟨0, 1⟩ := by
  refine ⟨rfl, ?_, by decide, rfl, by decide, by decide⟩
  intro k
  show (1000 : Nat) ≤ min 1010000 MAX_TIME_VALUE / 1000
  decide

/-- C5, amended: when the fetched list is a single tournament with status Registration,
`currentPlayers < 2`, every clock reading of the pass at or after its start time, and an
id, end time and player limit that convert to JavaScript numbers, the pass issues the
list read and then exactly one transaction, `cancelTournament(id)`, and counts no error. -/
theorem single_cancel_pass (env : Env) (w : World) (t : Tournament)
    (hready : w.contractReady = true ∨ env.initSucceeds = true)
    (hfetch : env.onGetAllTournaments w.calls = some [t])
    (hstatus : t.status = 0)
    (hstart : ∀ k, t.startTime ≤ env.dateNow k / 1000)
    (hplayers : t.currentPlayers < 2)
    (hid : t.id ≤ MAX_SAFE_INTEGER) (hend : t.endTime ≤ MAX_SAFE_INTEGER)
    (hmax : t.maxPlayers ≤ MAX_SAFE_INTEGER) :
    (manageTournaments env w).2.calls =
      w.calls ++ [.getAllTournaments, .cancelTournament t.id] ∧
    writes [.getAllTournaments, .cancelTournament t.id] = [.cancelTournament t.id] ∧
    (manageTournaments env w).1.errors = 0 := by
  have hst : t.startTime ≤ MAX_SAFE_INTEGER :=
    le_trans (hstart w.clockReads) (currentTime_lt_safe env w)
  have hcp : t.currentPlayers ≤ MAX_SAFE_INTEGER := by
    unfold MAX_SAFE_INTEGER; omega
  have hge : ¬ t.currentPlayers ≥ 2 := by omega
  rw [manageTournaments_of_fetch env w [t] hready hfetch (by simp)]
  refine ⟨?_, rfl, ?_⟩ <;>
  simp [processAll, processTournament, readTournament, selectAction, runAction,
    cancelUnfilledTournament, callCancelTournament, World.issue, worldAfterFetch,
    currentTimeSeconds, dateNowMs, toNumber_of_le hid, toNumber_of_le hend,
    toNumber_of_le hmax, toNumber_of_le hst, toNumber_of_le hcp, hstatus, hstart, hplayers,
    hge, PassOutcome.errors]

/-- C5, amended, at the end-to-end scenario: tournament #1, one player of four, start time
ten seconds before the clock. -/
theorem single_cancel_pass_witness :
    (manageTournaments scenarioEnv freshWorld).2.calls =
      [.getAllTournaments, .cancelTournament 1] ∧
    writes [Call.getAllTournaments, Call.cancelTournament 1] = [.cancelTournament 1] ∧
    (manageTournaments scenarioEnv freshWorld).1.errors = 0 :=
  single_cancel_pass scenarioEnv freshWorld scenarioTournament (Or.inr rfl) rfl rfl
    (fun _ => (by decide : (1000 : Nat) ≤ min 1010000 MAX_TIME_VALUE / 1000))
    (by decide) (by decide) (by decide) (by decide)

/-- C8: when the `getAllTournaments` read fails, the pass processes zero tournaments,
counts zero errors, and appends no transaction to the trace (at most the failed read). -/
theorem fetch_failure_processes_nothing (env : Env) (w : World)
    (hfetch : env.onGetAllTournaments w.calls = none) :
    (manageTournaments env w).1.processed = 0 ∧
    (manageTournaments env w).1.errors = 0 ∧
    ∃ new : List Call, (manageTournaments env w).2.calls = w.calls ++ new ∧ writes new = [] := by
  rcases manageTournaments_fetch_fails env w hfetch with ⟨h1, h2⟩ | ⟨h1, h2⟩
  · rw [h1, h2]
    exact ⟨rfl, rfl, [], by simp, rfl⟩
  · rw [h1, h2]
    exact ⟨rfl, rfl, [.getAllTournaments], rfl, rfl⟩

theorem readTournament_ok {env : Env} {t : Tournament} {w : World} {r : Reading}
    (hread : (readTournament env t w).1 = .ok r) :
    r = ⟨t.id, t.status, (currentTimeSeconds env w).1, t.startTime, t.endTime,
      t.currentPlayers, t.maxPlayers⟩ ∧ t.convertible = true := by
  unfold readTournament at hread
  split at hread
  · cases hread
  · rename_i i hi
    simp only [] at hread
    split at hread
    · cases hread
    · rename_i s hs
      split at hread
      · cases hread
      · rename_i e he
        split at hread
        · cases hread
        · rename_i c hc
          split at hread
          · cases hread
          · rename_i m hm
            obtain ⟨h1, rfl⟩ := (toNumber_ok_iff _ _).1 hi
            obtain ⟨h2, rfl⟩ := (toNumber_ok_iff _ _).1 hs
            obtain ⟨h3, rfl⟩ := (toNumber_ok_iff _ _).1 he
            obtain ⟨h4, rfl⟩ := (toNumber_ok_iff _ _).1 hc
            obtain ⟨h5, rfl⟩ := (toNumber_ok_iff _ _).1 hm
            injection hread with hread
            exact ⟨hread.symm, by simp [Tournament.convertible, h1, h2, h3, h4, h5]⟩

theorem readTournament_of_convertible (env : Env) {t : Tournament} (w : World)
    (h : t.convertible = true) :
    (readTournament env t w).1 = .ok ⟨t.id, t.status, (currentTimeSeconds env w).1,
      t.startTime, t.endTime, t.currentPlayers, t.maxPlayers⟩ := by
  simp only [Tournament.convertible, decide_eq_true_eq] at h
  obtain ⟨h1, h2, h3, h4, h5⟩ := h
  simp [readTournament, toNumber_of_le h1, toNumber_of_le h2, toNumber_of_le h3,
    toNumber_of_le h4, toNumber_of_le h5]

theorem readTournament_error_of_not_convertible (env : Env) {t : Tournament} (w : World)
    (h : t.convertible = false) : ∃ e, (readTournament env t w).1 = .error e := by
  cases hr : (readTournament env t w).1 with
  | error e => exact ⟨e, rfl⟩
  | ok r =>
    have := (readTournament_ok hr).2
    rw [h] at this
    cases this

theorem catchLoggingId_of_id {t : Tournament} (w : World) (h : t.id ≤ MAX_SAFE_INTEGER) :
    catchLoggingId t w = (.ok false, w) := by
  simp [catchLoggingId, toNumber_of_le h]

theorem runAction_ok (env : Env) (t : Tournament) (a : Action) (w : World)
    (h : t.id ≤ MAX_SAFE_INTEGER) : ∃ b, (runAction env t a w).1 = .ok b := by
  cases a with
  | cancel =>
    simp only [runAction, cancelUnfilledTournament, toNumber_of_le h]
    repeat' split
    all_goals simp [catchLoggingId_of_id _ h]
  | simulate =>
    simp only [runAction, simulateGameplay, toNumber_of_le h]
    repeat' split
    all_goals simp
  | finalize =>
    simp only [runAction, finalizeTournament, toNumber_of_le h]
    repeat' split
    all_goals simp [catchLoggingId_of_id _ h]
  | noAction => exact ⟨false, rfl⟩

theorem processTournament_throws_iff (env : Env) (t : Tournament) (w : World) :
    (∃ e, (processTournament env t w).1 = .error e) ↔ t.convertible = false := by
  constructor
  · rintro ⟨e, he⟩
    cases hc : t.convertible with
    | false => rfl
    | true =>
      have hr := readTournament_of_convertible env w hc
      rw [processTournament_of_read hr] at he
      simp only [Tournament.convertible, decide_eq_true_eq] at hc
      obtain ⟨b, hb⟩ := runAction_ok env t (selectAction _) (readTournament env t w).2 hc.1
      rw [hb] at he
      cases he
  · intro h
    obtain ⟨e, he⟩ := readTournament_error_of_not_convertible env w h
    refine ⟨e, ?_⟩
    unfold processTournament
    rw [he]

theorem processAll_eq_foldl (env : Env) (ts : List Tournament) (c : Counters) (w : World) :
    processAll env ts c w = ts.foldl (iteration env) (c, w) := by
  induction ts generalizing c w with
  | nil => rfl
  | cons t rest ih =>
    simp only [processAll, List.foldl_cons, iteration]
    split <;> exact ih _ _

theorem processAll_counts (env : Env) (ts : List Tournament) (c : Counters) (w : World) :
    (processAll env ts c w).1.processed =
      c.processed + (ts.filter (fun t => t.convertible)).length ∧
    (processAll env ts c w).1.errors =
      c.errors + (ts.filter (fun t => !t.convertible)).length := by
  induction ts generalizing c w with
  | nil => simp [processAll]
  | cons t rest ih =>
    simp only [processAll]
    cases hc : t.convertible with
    | false =>
      obtain ⟨e, he⟩ := (processTournament_throws_iff env t w).2 hc
      rw [he]
      simp only []
      obtain ⟨h1, h2⟩ := ih { c with errors := c.errors + 1 } (processTournament env t w).2
      rw [h1, h2]
      simp [hc]
      omega
    | true =>
      cases hp : (processTournament env t w).1 with
      | error e =>
        have := (processTournament_throws_iff env t w).1 ⟨e, hp⟩
        rw [hc] at this
        cases this
      | ok b =>
        simp only []
        obtain ⟨h1, h2⟩ := ih { c with processed := c.processed + 1 } (processTournament env t w).2
        rw [h1, h2]
        simp [hc]
        omega

/-- C8 on a chain whose list read throws, from the uninitialised manager. -/
theorem fetch_failure_processes_nothing_witness :
    (manageTournaments downEnv freshWorld).1.processed = 0 ∧
    (manageTournaments downEnv freshWorld).1.errors = 0 ∧
    ∃ new : List Call,
      (manageTournaments downEnv freshWorld).2.calls = freshWorld.calls ++ new ∧
      writes new = [] :=
  fetch_failure_processes_nothing downEnv freshWorld rfl

/-- C7: when the fetch returns a non-empty list, the pass is the left fold of the loop
iteration over the whole list, in list order, whatever the iterations throw; the
processing of a tournament throws exactly when one of its numbers does not convert; the
final error count is the number of such tournaments and the processed count is the
number of the others. -/
theorem partial_failure_isolation (env : Env) (w : World) (ts : List Tournament)
    (hready : w.contractReady = true ∨ env.initSucceeds = true)
    (hfetch : env.onGetAllTournaments w.calls = some ts) (hne : ts ≠ []) :
    manageTournaments env w =
      (.completed (ts.foldl (iteration env) (⟨0, 0⟩, worldAfterFetch w)).1,
        (dateNowMs env (ts.foldl (iteration env) (⟨0, 0⟩, worldAfterFetch w)).2).2) ∧
    (∀ t w', (∃ e, (processTournament env t w').1 = .error e) ↔ t.convertible = false) ∧
    (manageTournaments env w).1.errors = (ts.filter (fun t => !t.convertible)).length ∧
    (manageTournaments env w).1.processed = (ts.filter (fun t => t.convertible)).length := by
  have hm := manageTournaments_of_fetch env w ts hready hfetch hne
  obtain ⟨h1, h2⟩ := processAll_counts env ts ⟨0, 0⟩ (worldAfterFetch w)
  refine ⟨?_, processTournament_throws_iff env, ?_, ?_⟩
  · rw [hm, processAll_eq_foldl]
  · rw [hm]
    simpa [PassOutcome.errors] using h2
  · rw [hm]
    simpa [PassOutcome.processed] using h1

/-- C7 on a batch of three where only the second throws: one error, two processed, and
the first and the third tournament both get their cancellation. -/
theorem partial_failure_isolation_witness :
    (manageTournaments batchEnv freshWorld).1.errors = 1 ∧
    (manageTournaments batchEnv freshWorld).1.processed = 2 ∧
    (manageTournaments batchEnv freshWorld).2.calls =
      [.getAllTournaments, .cancelTournament 1, .cancelTournament 3] :=
  ⟨(partial_failure_isolation batchEnv freshWorld batchOfThree (Or.inr rfl) rfl
      (by decide)).2.2.1,
    (partial_failure_isolation batchEnv freshWorld batchOfThree (Or.inr rfl) rfl
      (by decide)).2.2.2,
    by decide⟩

theorem processTournament_dormant (env : Env) (t : Tournament) (w : World)
    (h : t.status = 2 ∨ t.status = 3 ∨
      (t.status = 0 ∧ (currentTimeSeconds env w).1 < t.startTime)) :
    (processTournament env t w).2.calls = w.calls ∧
    (processTournament env t w).2.contractReady = w.contractReady := by
  obtain ⟨hc, hr⟩ := readTournament_calls env t w
  cases hread : (readTournament env t w).1 with
  | error e =>
    unfold processTournament
    rw [hread]
    exact ⟨hc, hr⟩
  | ok r =>
    obtain ⟨rfl, _⟩ := readTournament_ok hread
    have hsel : selectAction ⟨t.id, t.status, (currentTimeSeconds env w).1, t.startTime,
        t.endTime, t.currentPlayers, t.maxPlayers⟩ = .noAction := by
      unfold selectAction
      simp only []
      split_ifs <;> first | rfl | omega
    rw [processTournament_of_read hread, hsel]
    exact ⟨hc, hr⟩

theorem processAll_dormant (env : Env) (ts : List Tournament) (c : Counters) (w : World)
    (h : ∀ t ∈ ts, t.status = 2 ∨ t.status = 3 ∨
      (t.status = 0 ∧ ∀ k, env.dateNow k / 1000 < t.startTime)) :
    (processAll env ts c w).2.calls = w.calls := by
  induction ts generalizing c w with
  | nil => rfl
  | cons t rest ih =>
    have ht : t.status = 2 ∨ t.status = 3 ∨
        (t.status = 0 ∧ (currentTimeSeconds env w).1 < t.startTime) := by
      rcases h t (List.mem_cons_self _ _) with h1 | h1 | ⟨h1, h2⟩
      · exact Or.inl h1
      · exact Or.inr (Or.inl h1)
      · exact Or.inr (Or.inr ⟨h1, h2 _⟩)
    have hb := (processTournament_dormant env t w ht).1
    have hrest := fun c' => ih c' (processTournament env t w).2
      (fun t' ht' => h t' (List.mem_cons_of_mem _ ht'))
    simp only [processAll]
    split
    · rw [hrest, hb]
    · rw [hrest, hb]

theorem manageTournaments_dormant (env : Env) (w : World)
    (h : ∀ ts, env.onGetAllTournaments w.calls = some ts →
      ∀ t ∈ ts, t.status = 2 ∨ t.status = 3 ∨
        (t.status = 0 ∧ ∀ k, env.dateNow k / 1000 < t.startTime)) :
    (manageTournaments env w).2.calls = w.calls ∨
    (manageTournaments env w).2.calls = w.calls ++ [.getAllTournaments] := by
  cases hf : env.onGetAllTournaments w.calls with
  | none =>
    rcases manageTournaments_fetch_fails env w hf with ⟨_, h2⟩ | ⟨_, h2⟩
    · exact Or.inl h2
    · exact Or.inr h2
  | some ts =>
    by_cases hready : w.contractReady = true ∨ env.initSucceeds = true
    · by_cases hne : ts = []
      · subst hne
        right
        unfold manageTournaments
        cases hw : w.contractReady
        · rcases hready with h1 | h1
          · rw [hw] at h1; cases h1
          · simp [dateNowMs, initializeContract, fetchAllTournaments, World.issue, hw, h1, hf]
        · simp [dateNowMs, fetchAllTournaments, World.issue, hw, hf]
      · right
        rw [manageTournaments_of_fetch env w ts hready hf hne]
        simp only [dateNowMs]
        rw [processAll_dormant env ts _ _ (h ts hf)]
        rfl
    · left
      have h1 : w.contractReady = false := by
        cases hw : w.contractReady
        · rfl
        · exact absurd (Or.inl hw) hready
      have h2 : env.initSucceeds = false := by
        cases hi : env.initSucceeds
        · rfl
        · exact absurd (Or.inr hi) hready
      simp [manageTournaments, dateNowMs, initializeContract, h1, h2]

/-- C6: for status Completed (2) or Canceled (3), and for Registration before the start
time, the chain selects no-action and the loop body issues no chain call at all (no
transaction, no score read); when every fetched tournament is of this kind, two passes
in a row add no transaction and no score read to the trace. -/
theorem dormant_tournaments_untouched :
    (∀ r : Reading,
      (r.status = 2 ∨ r.status = 3 ∨ (r.status = 0 ∧ r.currentTime < r.startTime)) →
      selectAction r = .noAction) ∧
    (∀ (env : Env) (t : Tournament) (w : World),
      (t.status = 2 ∨ t.status = 3 ∨
        (t.status = 0 ∧ (currentTimeSeconds env w).1 < t.startTime)) →
      (processTournament env t w).2.calls = w.calls) ∧
    (∀ (env : Env) (w : World),
      (∀ history ts, env.onGetAllTournaments history = some ts →
        ∀ t ∈ ts, t.status = 2 ∨ t.status = 3 ∨
          (t.status = 0 ∧ ∀ k, env.dateNow k / 1000 < t.startTime)) →
      ∃ first second : List Call,
        (manageTournaments env w).2.calls = w.calls ++ first ∧
        (manageTournaments env (manageTournaments env w).2).2.calls =
          w.calls ++ first ++ second ∧
        writes first = [] ∧ writes second = [] ∧
        first.filter Call.isScoreRead = [] ∧ second.filter Call.isScoreRead = []) := by
  refine ⟨?_, ?_, ?_⟩
  · intro r h
    unfold selectAction
    split_ifs <;> first | rfl | omega
  · intro env t w h
    exact (processTournament_dormant env t w h).1
  · intro env w h
    have key : ∀ w' : World, ∃ new : List Call,
        (manageTournaments env w').2.calls = w'.calls ++ new ∧ writes new = [] ∧
        new.filter Call.isScoreRead = [] := by
      intro w'
      rcases manageTournaments_dormant env w' (fun ts => h w'.calls ts) with h1 | h1
      · exact ⟨[], by simp [h1], rfl, rfl⟩
      · exact ⟨[.getAllTournaments], h1, rfl, rfl⟩
    obtain ⟨first, hf1, hf2, hf3⟩ := key w
    obtain ⟨second, hs1, hs2, hs3⟩ := key (manageTournaments env w).2
    exact ⟨first, second, hf1, by rw [hs1, hf1], hf2, hs2, hf3, hs3⟩

/-- C6 on a list of one Completed and one Canceled tournament: after two passes the trace
holds no transaction. -/
theorem dormant_tournaments_untouched_witness :
    writes (manageTournaments settledEnv (manageTournaments settledEnv freshWorld).2).2.calls
      = [] := by
  obtain ⟨first, second, _, h2, h3, h4, _, _⟩ :=
    dormant_tournaments_untouched.2.2 settledEnv freshWorld (by
      intro history ts hts t ht
      have hts' : settledTournaments = ts := Option.some.inj hts
      subst hts'
      simp only [settledTournaments, List.mem_cons, List.mem_singleton, List.not_mem_nil,
        or_false] at ht
      rcases ht with rfl | rfl
      · exact Or.inl rfl
      · exact Or.inr (Or.inl rfl))
  rw [h2]
  simp only [writes, List.filter_append] at h3 h4 ⊢
  rw [h3, h4]
  rfl

/-- C9 fails as stated: with status InProgress and `now > endTime`, `finalizeTournament`
issues no transaction when the contract handle is unset, and when the id does not
convert (it then rejects instead of returning `false`). -/
theorem finalize_write_iff_counterexample :
    (duoTournament.status = 1 ∧
      (currentTimeSeconds (quietEnv 3000000) freshWorld).1 > duoTournament.endTime ∧
      (finalizeTournament (quietEnv 3000000) duoTournament freshWorld).2.calls = []) ∧
    (unsafeIdTournament.status = 1 ∧
      (currentTimeSeconds (quietEnv 3000000) readyWorld).1 > unsafeIdTournament.endTime ∧
      finalizeTournament (quietEnv 3000000) unsafeIdTournament readyWorld =
        (.error .overflow, readyWorld)) := by
  refine ⟨⟨rfl, by decide, by decide⟩, rfl, by decide, rfl⟩

/-- C9, amended: for a snapshot whose id converts, `finalizeTournament` with the contract
handle set, status InProgress and `now > endTime` issues exactly one transaction,
`finalizeTournament(id)`; when the handle is unset, or the status is not InProgress, or
`now <= endTime`, it returns `false` and issues no call. -/
theorem finalize_write_condition (env : Env) (t : Tournament) (w : World)
    (hid : t.id ≤ MAX_SAFE_INTEGER) :
    (w.contractReady = true → t.status = 1 → (currentTimeSeconds env w).1 > t.endTime →
      ∃ new : List Call, (finalizeTournament env t w).2.calls = w.calls ++ new ∧
        writes new = [.finalizeTournament t.id]) ∧
    ((w.contractReady = false ∨ t.status ≠ 1 ∨ (currentTimeSeconds env w).1 ≤ t.endTime) →
      (finalizeTournament env t w).1 = .ok false ∧
      (finalizeTournament env t w).2.calls = w.calls) := by
  constructor
  · intro hready hstatus hnow
    have hend : t.endTime ≤ MAX_SAFE_INTEGER :=
      le_trans (Nat.le_of_lt hnow) (currentTime_lt_safe env w)
    have hnot : ¬ env.dateNow w.clockReads / 1000 ≤ t.endTime := by
      simp only [currentTimeSeconds, dateNowMs] at hnow
      omega
    cases hf : env.onFinalizeTournament w.calls t.id
    · refine ⟨[.finalizeTournament t.id], ?_, rfl⟩
      simp [finalizeTournament, toNumber_of_le hid, toNumber_of_le hend, hstatus, hnot,
        callFinalizeTournament, currentTimeSeconds, dateNowMs, hready, World.issue, hf,
        catchLoggingId_world]
    · refine ⟨[.finalizeTournament t.id, .getTournamentWinners t.id], ?_, rfl⟩
      simp [finalizeTournament, toNumber_of_le hid, toNumber_of_le hend, hstatus, hnot,
        callFinalizeTournament, callGetTournamentWinners, currentTimeSeconds, dateNowMs,
        hready, World.issue, hf]
  · intro h
    simp only [finalizeTournament, toNumber_of_le hid]
    by_cases hstatus : t.status = 1
    · simp only [hstatus, ne_eq, not_true_eq_false, if_false]
      cases hc : toNumber t.endTime with
      | error e => simp [catchLoggingId_of_id _ hid, currentTimeSeconds, dateNowMs]
      | ok n =>
        obtain ⟨_, rfl⟩ := (toNumber_ok_iff _ _).1 hc
        simp only []
        by_cases hle : (currentTimeSeconds env w).1 ≤ t.endTime
        · rw [if_pos hle]
          exact ⟨rfl, rfl⟩
        · rw [if_neg hle]
          have hw : w.contractReady = false := by
            rcases h with h | h | h
            · exact h
            · exact absurd hstatus h
            · exact absurd h hle
          simp [callFinalizeTournament, currentTimeSeconds, dateNowMs, hw,
            catchLoggingId_of_id _ hid]
    · rw [if_pos hstatus]
      exact ⟨rfl, rfl⟩

/-- C9, amended, at tournament #7 (end time 2000 s): the transaction at 3000 s, the
skip at 1500 s. -/
theorem finalize_write_condition_witness :
    (∃ new : List Call,
      (finalizeTournament (quietEnv 3000000) duoTournament readyWorld).2.calls =
        readyWorld.calls ++ new ∧ writes new = [.finalizeTournament duoTournament.id]) ∧
    (finalizeTournament (quietEnv 1500000) duoTournament readyWorld).1 = .ok false :=
  ⟨(finalize_write_condition (quietEnv 3000000) duoTournament readyWorld (by decide)).1
      rfl rfl (by decide),
    ((finalize_write_condition (quietEnv 1500000) duoTournament readyWorld (by decide)).2
      (Or.inr (Or.inr (by decide)))).1⟩

theorem cancelUnfilledTournament_skips (env : Env) (t : Tournament) (w : World)
    (hid : t.id ≤ MAX_SAFE_INTEGER) (hstatus : t.status ≠ 0) :
    cancelUnfilledTournament env t w = (.ok false, w) := by
  simp [cancelUnfilledTournament, toNumber_of_le hid, hstatus]

/-- C10 at the failing input: on a snapshot with status InProgress whose id is one above
the safe range, `cancelUnfilledTournament` rejects with the overflow error instead of
returning `false`; `simulateGameplay`, whose handler does not read the id again,
returns `false` on an id of that size. -/
theorem cancel_rejects_on_unsafe_id :
    unsafeIdTournament.status ≠ 0 ∧
    cancelUnfilledTournament (quietEnv 3000000) unsafeIdTournament readyWorld =
      (.error .overflow, readyWorld) ∧
    simulateGameplay (quietEnv 3000000) { unsafeIdTournament with status := 0 } readyWorld =
      (.ok false, readyWorld) :=
  ⟨by decide, rfl, rfl⟩

/-! ## The executors in detail (C11 to C17), the server and the scheduler (C18 to C20) -/

theorem toNumber_cases (b : Nat) : toNumber b = .ok b ∨ toNumber b = .error .overflow := by
  by_cases h : b ≤ MAX_SAFE_INTEGER
  · exact Or.inl (toNumber_of_le h)
  · exact Or.inr (toNumber_of_gt (by omega))

theorem cancelUnfilledTournament_filled (env : Env) (t : Tournament) (w : World)
    (hid : t.id ≤ MAX_SAFE_INTEGER) (hstatus : t.status = 0) (hplayers : t.currentPlayers ≥ 2) :
    cancelUnfilledTournament env t w = (.ok false, (currentTimeSeconds env w).2) := by
  have hnot : ¬ t.currentPlayers < 2 := by omega
  rcases toNumber_cases t.startTime with hs | hs <;>
  rcases toNumber_cases t.currentPlayers with hc | hc <;>
  rcases toNumber_cases t.maxPlayers with hm | hm <;>
  simp [cancelUnfilledTournament, toNumber_of_le hid, hstatus, catchLoggingId_of_id _ hid,
    hs, hc, hm, hplayers]

/-- C11: for a Registration snapshot past its start time with `currentPlayers >= 2`,
`cancelUnfilledTournament` issues no call, returns `false` when the id converts, and gives
the same outcome for every value of `maxPlayers`; at the failing input (id one above the
safe range) it rejects with the overflow error instead of returning `false`. -/
theorem cancel_keeps_minimum_filled :
    (∀ (env : Env) (t : Tournament) (w : World),
      t.status = 0 → t.startTime ≤ (currentTimeSeconds env w).1 → t.currentPlayers ≥ 2 →
      (cancelUnfilledTournament env t w).2.calls = w.calls ∧
      (t.id ≤ MAX_SAFE_INTEGER → (cancelUnfilledTournament env t w).1 = .ok false) ∧
      (∀ m : Nat, cancelUnfilledTournament env { t with maxPlayers := m } w =
        cancelUnfilledTournament env t w)) ∧
    (unsafeIdRegistration.status = 0 ∧
      unsafeIdRegistration.startTime ≤ (currentTimeSeconds (quietEnv 1010000) readyWorld).1 ∧
      unsafeIdRegistration.currentPlayers ≥ 2 ∧
      cancelUnfilledTournament (quietEnv 1010000) unsafeIdRegistration readyWorld =
        (.error .overflow, readyWorld)) := by
  refine ⟨?_, rfl, by decide, by decide, rfl⟩
  intro env t w hstatus _ hplayers
  by_cases hid : t.id ≤ MAX_SAFE_INTEGER
  · have h1 := cancelUnfilledTournament_filled env t w hid hstatus hplayers
    refine ⟨by rw [h1]; rfl, fun _ => by rw [h1], fun m => ?_⟩
    rw [h1]
    exact cancelUnfilledTournament_filled env { t with maxPlayers := m } w hid hstatus hplayers
  · have h2 : toNumber t.id = .error .overflow := toNumber_of_gt (by omega)
    refine ⟨?_, fun h => absurd h hid, fun m => ?_⟩
    · simp [cancelUnfilledTournament, catchLoggingId, h2]
    · simp [cancelUnfilledTournament, catchLoggingId, h2]

theorem simulateGameplay_runs (env : Env) (t : Tournament) (w : World)
    (hid : t.id ≤ MAX_SAFE_INTEGER) (hstatus : t.status = 1)
    (hprobe : ∀ first rest s, t.players = first :: rest →
      (callGetPlayerScore env t.id first w).1 = some s → s ≤ MAX_SAFE_INTEGER → s = 0) :
    simulateGameplay env t w =
      (.ok true, submitScores env t.id t.gameType t.players
        (match t.players with
          | [] => w
          | first :: _ => (callGetPlayerScore env t.id first w).2)) := by
  simp only [simulateGameplay, toNumber_of_le hid, hstatus, ne_eq, not_true_eq_false, if_false]
  cases hp : t.players with
  | nil => rfl
  | cons first rest =>
    simp only []
    cases hs : (callGetPlayerScore env t.id first w).1 with
    | none => rfl
    | some s =>
      simp only []
      rcases toNumber_cases s with h | h
      · rw [h]
        have h0 : s = 0 := hprobe first rest s hp hs ((toNumber_ok_iff _ _).1 h).1
        subst h0
        simp
      · rw [h]

/-- C12 fails as stated: on an InProgress snapshot whose id does not convert,
`simulateGameplay` returns `false` and submits nothing; with the contract handle unset it
returns `true` although no `submitScore` call is made. -/
theorem simulate_one_submission_per_player_counterexample :
    (unsafeIdTournament.status = 1 ∧
      simulateGameplay (quietEnv 1500000) unsafeIdTournament readyWorld =
        (.ok false, readyWorld)) ∧
    (duoTournament.status = 1 ∧
      (simulateGameplay (quietEnv 1500000) duoTournament freshWorld).1 = .ok true ∧
      (simulateGameplay (quietEnv 1500000) duoTournament freshWorld).2.calls = []) :=
  ⟨⟨rfl, rfl⟩, rfl, rfl, by decide⟩

/-- C12, amended: with the contract handle set, an id that converts, status InProgress and
a probe that does not return a positive convertible score, `simulateGameplay` returns
`true` and its calls are the probe (if any) followed by exactly one `submitScore` per
player of the roster, in roster order, whatever the chain answers to each submission. -/
theorem simulate_one_submission_per_player (env : Env) (t : Tournament) (w : World)
    (hready : w.contractReady = true) (hid : t.id ≤ MAX_SAFE_INTEGER) (hstatus : t.status = 1)
    (hprobe : ∀ first rest s, t.players = first :: rest →
      env.onGetPlayerScore w.calls t.id first = some s → s ≤ MAX_SAFE_INTEGER → s = 0) :
    (simulateGameplay env t w).1 = .ok true ∧
    ∃ (probe : List Call) (scores : List ℚ),
      (simulateGameplay env t w).2.calls =
        w.calls ++ probe ++
          List.zipWith (fun p s => Call.submitScore t.id p s) t.players scores ∧
      scores.length = t.players.length ∧
      (probe = [] ∨ ∃ first rest, t.players = first :: rest ∧
        probe = [.getPlayerScore t.id first]) := by
  have hp : ∀ first rest s, t.players = first :: rest →
      (callGetPlayerScore env t.id first w).1 = some s → s ≤ MAX_SAFE_INTEGER → s = 0 := by
    intro first rest s h1 h2 h3
    simp only [callGetPlayerScore, hready, if_true] at h2
    exact hprobe first rest s h1 h2 h3
  rw [simulateGameplay_runs env t w hid hstatus hp]
  refine ⟨rfl, ?_⟩
  cases hpl : t.players with
  | nil => exact ⟨[], [], by simp [submitScores], rfl, Or.inl rfl⟩
  | cons first rest =>
    simp only []
    obtain ⟨_, scores, hlen, hcalls⟩ := submitScores_calls env t.id t.gameType (first :: rest)
      (callGetPlayerScore env t.id first w).2
    refine ⟨[.getPlayerScore t.id first], scores, ?_, hlen, Or.inr ⟨first, rest, rfl, rfl⟩⟩
    rw [hcalls]
    simp [callGetPlayerScore, hready, World.issue]

/-- C12, amended, at tournament #7 on a chain where every `submitScore` fails. -/
theorem simulate_one_submission_per_player_witness :
    (simulateGameplay rejectingEnv duoTournament readyWorld).1 = .ok true ∧
    ∃ (probe : List Call) (scores : List ℚ),
      (simulateGameplay rejectingEnv duoTournament readyWorld).2.calls =
        readyWorld.calls ++ probe ++
          List.zipWith (fun p s => Call.submitScore duoTournament.id p s)
            duoTournament.players scores ∧
      scores.length = duoTournament.players.length ∧
      (probe = [] ∨ ∃ first rest, duoTournament.players = first :: rest ∧
        probe = [.getPlayerScore duoTournament.id first]) :=
  simulate_one_submission_per_player rejectingEnv duoTournament readyWorld rfl (by decide) rfl
    (fun _ _ s _ h _ => (Option.some.inj h).symm)

/-- C13 fails as stated: the recorded score of the first player is positive (one above the
safe range), yet `simulateGameplay` returns `true` and submits a score for both players,
because the conversion of the probe throws and the simulation goes on. -/
theorem simulate_skips_counterexample :
    hugeScoreEnv.onGetPlayerScore readyWorld.calls duoTournament.id "0xA" =
      some 9007199254740992 ∧
    (simulateGameplay hugeScoreEnv duoTournament readyWorld).1 = .ok true ∧
    (writes (simulateGameplay hugeScoreEnv duoTournament readyWorld).2.calls).map
      Call.tournament = [some 7, some 7] :=
  ⟨rfl, rfl, by decide⟩

theorem simulateGameplay_score_reads (env : Env) (t : Tournament) (w : World) :
    ∃ new : List Call, (simulateGameplay env t w).2.calls = w.calls ++ new ∧
      (new.filter Call.isScoreRead = [] ∨
        ∃ first rest, t.players = first :: rest ∧
          new.filter Call.isScoreRead = [.getPlayerScore t.id first]) := by
  have hzip : ∀ (ps : List Address) (scores : List ℚ),
      (List.zipWith (fun p s => Call.submitScore t.id p s) ps scores).filter
        Call.isScoreRead = [] := by
    intro ps
    induction ps with
    | nil => intro scores; simp
    | cons p rest ih =>
      intro scores
      cases scores with
      | nil => simp
      | cons s ss => simpa [Call.isScoreRead] using ih ss
  have hsub : ∀ (pre : List Call) (w1 : World), w1.calls = w.calls ++ pre →
      ∃ new : List Call,
        (submitScores env t.id t.gameType t.players w1).calls = w.calls ++ new ∧
        new.filter Call.isScoreRead = pre.filter Call.isScoreRead := by
    intro pre w1 hpre
    obtain ⟨_, scores, _, hcalls⟩ := submitScores_calls env t.id t.gameType t.players w1
    rw [hcalls, hpre]
    cases w1.contractReady
    · exact ⟨pre, by simp, rfl⟩
    · exact ⟨pre ++ List.zipWith (fun p s => Call.submitScore t.id p s) t.players scores,
        by simp, by simp [List.filter_append, hzip]⟩
  unfold simulateGameplay
  rcases toNumber_cases t.id with hid | hid
  · rw [hid]
    simp only []
    split
    · exact ⟨[], by simp, Or.inl rfl⟩
    · cases hp : t.players with
      | nil =>
        obtain ⟨new, h1, h2⟩ := hsub [] w (by simp)
        rw [hp] at h1
        exact ⟨new, h1, Or.inl h2⟩
      | cons first rest =>
        simp only []
        have hpre : ∃ pre : List Call,
            (callGetPlayerScore env t.id first w).2.calls = w.calls ++ pre ∧
            (pre.filter Call.isScoreRead = [] ∨
              pre.filter Call.isScoreRead = [.getPlayerScore t.id first]) := by
          unfold callGetPlayerScore
          split
          · exact ⟨[.getPlayerScore t.id first], rfl, Or.inr rfl⟩
          · exact ⟨[], by simp, Or.inl rfl⟩
        obtain ⟨pre, hpre1, hpre2⟩ := hpre
        have hfin : ∀ new : List Call,
            new.filter Call.isScoreRead = pre.filter Call.isScoreRead →
            (new.filter Call.isScoreRead = [] ∨
              ∃ first' rest', first :: rest = first' :: rest' ∧
                new.filter Call.isScoreRead = [.getPlayerScore t.id first']) := by
          intro new hnew
          rcases hpre2 with h | h
          · exact Or.inl (by rw [hnew, h])
          · exact Or.inr ⟨first, rest, rfl, by rw [hnew, h]⟩
        obtain ⟨new, h1, h2⟩ := hsub pre _ hpre1
        rw [hp] at h1
        split
        · exact ⟨new, h1, hfin new h2⟩
        · split
          · exact ⟨new, h1, hfin new h2⟩
          · split
            · exact ⟨pre, hpre1, hfin pre rfl⟩
            · exact ⟨new, h1, hfin new h2⟩
  · rw [hid]
    exact ⟨[], by simp, Or.inl rfl⟩

/-- C13, amended: `simulateGameplay` returns `false` with no effect when the status is not
InProgress; it returns `false` and issues no transaction when the probe returns a
positive score that converts; and the score reads it makes are none, or the single read
of the first player of the roster. -/
theorem simulate_skips (env : Env) (t : Tournament) (w : World) :
    (t.status ≠ 1 → simulateGameplay env t w = (.ok false, w)) ∧
    (∀ first rest s, t.players = first :: rest → w.contractReady = true →
      env.onGetPlayerScore w.calls t.id first = some s → s > 0 → s ≤ MAX_SAFE_INTEGER →
      (simulateGameplay env t w).1 = .ok false ∧
      writes (simulateGameplay env t w).2.calls = writes w.calls) ∧
    (∃ new : List Call, (simulateGameplay env t w).2.calls = w.calls ++ new ∧
      (new.filter Call.isScoreRead = [] ∨
        ∃ first rest, t.players = first :: rest ∧
          new.filter Call.isScoreRead = [.getPlayerScore t.id first])) := by
  refine ⟨?_, ?_, simulateGameplay_score_reads env t w⟩
  · intro hstatus
    rcases toNumber_cases t.id with hid | hid <;> simp [simulateGameplay, hid, hstatus]
  · intro first rest s hp hready hs hpos hsafe
    have hnot : ¬ s = 0 := by omega
    rcases toNumber_cases t.id with hid | hid
    · by_cases hstatus : t.status = 1
      · simp [simulateGameplay, hid, hstatus, hp, callGetPlayerScore, hready, hs,
          toNumber_of_le hsafe, hpos, World.issue, writes, Call.isWrite]
      · simp [simulateGameplay, hid, hstatus]
    · simp [simulateGameplay, hid]

/-- C13, amended, at tournament #7: with status Completed, and with a recorded score 5. -/
theorem simulate_skips_witness :
    simulateGameplay (quietEnv 1500000) { duoTournament with status := 2 } readyWorld =
      (.ok false, readyWorld) ∧
    ((simulateGameplay scoredEnv duoTournament readyWorld).1 = .ok false ∧
      writes (simulateGameplay scoredEnv duoTournament readyWorld).2.calls =
        writes readyWorld.calls) :=
  ⟨(simulate_skips (quietEnv 1500000) { duoTournament with status := 2 } readyWorld).1
      (by decide),
    (simulate_skips scoredEnv duoTournament readyWorld).2.1 "0xA" ["0xB"] 5 rfl rfl rfl
      (by decide) (by decide)⟩

theorem baseScore_range (r : ℚ) (h0 : 0 ≤ r) (h1 : r < 1) :
    (100 : ℚ) ≤ ((⌊r * 900⌋ : ℤ) : ℚ) + 100 ∧ ((⌊r * 900⌋ : ℤ) : ℚ) + 100 ≤ 999 := by
  have hnn : (0 : ℤ) ≤ ⌊r * 900⌋ := Int.floor_nonneg.2 (by positivity)
  have hlt : ⌊r * 900⌋ < (900 : ℤ) := Int.floor_lt.2 (by push_cast; linarith)
  have hle : ⌊r * 900⌋ ≤ (899 : ℤ) := by omega
  have h2 : ((⌊r * 900⌋ : ℤ) : ℚ) ≤ 899 := by exact_mod_cast hle
  have h3 : (0 : ℚ) ≤ ((⌊r * 900⌋ : ℤ) : ℚ) := by exact_mod_cast hnn
  constructor <;> linarith

/-- C14: whatever the random draws in `[0, 1)`, `generateRandomScore` returns at most 800
for "Free to play", a value in `[100, 1000)` for "Default" and a value in `[50, 1500)`
for "P2W" (scores taken in exact arithmetic). -/
theorem generateRandomScore_bounds (env : Env) (w : World) :
    (generateRandomScore env "Free to play" w).1 ≤ 800 ∧
    (100 ≤ (generateRandomScore env "Default" w).1 ∧
      (generateRandomScore env "Default" w).1 < 1000) ∧
    (50 ≤ (generateRandomScore env "P2W" w).1 ∧
      (generateRandomScore env "P2W" w).1 < 1500) := by
  obtain ⟨h0, h1⟩ := env.random_range w.draws
  obtain ⟨hb0, hb1⟩ := baseScore_range (env.random w.draws) h0 h1
  obtain ⟨g0, g1⟩ := env.random_range (w.draws + 1)
  have e1 : ("Free to play" : String) ≠ "Default" := by decide
  have e2 : ("Free to play" : String) ≠ "P2W" := by decide
  have e3 : ("P2W" : String) ≠ "Default" := by decide
  refine ⟨?_, ⟨?_, ?_⟩, ?_, ?_⟩
  · simp only [generateRandomScore, mathRandom, if_neg e1, if_neg e2, if_true]
    exact min_le_right _ _
  · simp only [generateRandomScore, mathRandom, if_true]
    exact hb0
  · simp only [generateRandomScore, mathRandom, if_true]
    linarith
  · simp only [generateRandomScore, mathRandom, if_neg e3, if_true]
    nlinarith
  · simp only [generateRandomScore, mathRandom, if_neg e3, if_true]
    nlinarith

/-- C15 fails as stated: for a pool of 0.00015 ether and two winners the report logs
0.0001 and 0.0000, which do not sum to the pool (for 0.0005 ether it logs 0.0003 and
0.0001); and for a pool of 0.1 ether the two computed shares, the doubles `0.1 * 0.7` and
`0.1 * 0.3`, do not add up to the pool. -/
theorem prize_report_counterexample :
    (prizeReport ["0xA", "0xB"] { duoTournament with totalPrizePool := 150000000000000 } =
        [(70, .fixed 1), (30, .fixed 0)] ∧
      reportedTotal (prizeReport ["0xA", "0xB"]
        { duoTournament with totalPrizePool := 150000000000000 }) ≠ 150000000000000) ∧
    (prizeReport ["0xA", "0xB"] { duoTournament with totalPrizePool := 500000000000000 } =
        [(70, .fixed 3), (30, .fixed 1)] ∧
      reportedTotal (prizeReport ["0xA", "0xB"]
        { duoTournament with totalPrizePool := 500000000000000 }) ≠ 500000000000000) ∧
    (computedShares 2 100000000000000000 =
        [(prizePoolEther 100000000000000000).mul (Double.nearest 7 10),
          (prizePoolEther 100000000000000000).mul (Double.nearest 3 10)] ∧
      (((prizePoolEther 100000000000000000).mul (Double.nearest 7 10)).add
        ((prizePoolEther 100000000000000000).mul (Double.nearest 3 10))).same
          (prizePoolEther 100000000000000000) = false) := by
  refine ⟨⟨by decide!, by decide!⟩, ⟨by decide!, by decide!⟩, rfl, by decide!⟩

theorem reportedShares_three_or_more (winners totalPrizePool : Nat) (h : winners ≥ 3) :
    computedShares winners totalPrizePool =
      [(prizePoolEther totalPrizePool).mul (Double.nearest 5 10),
        (prizePoolEther totalPrizePool).mul (Double.nearest 3 10),
        (prizePoolEther totalPrizePool).mul (Double.nearest 2 10)] ∧
    reportedShares winners totalPrizePool =
      [(50, ((prizePoolEther totalPrizePool).mul (Double.nearest 5 10)).toFixed4),
        (30, ((prizePoolEther totalPrizePool).mul (Double.nearest 3 10)).toFixed4),
        (20, ((prizePoolEther totalPrizePool).mul (Double.nearest 2 10)).toFixed4)] := by
  unfold reportedShares computedShares
  rw [if_neg (by omega), if_neg (by omega), if_pos h, if_neg (by omega), if_neg (by omega),
    if_pos h]
  exact ⟨rfl, rfl⟩

/-- C15, amended: with `p` the double read from the pool, for one winner the report
computes no share and logs the pool itself, labelled 100%; for two winners the shares
computed are the double products `p * 0.7` and `p * 0.3`, and for three or more winners
`p * 0.5`, `p * 0.3` and `p * 0.2`, each logged through `toFixed(4)` and labelled 70 / 30
and 50 / 30 / 20. For `p = 10` the shares are the doubles 5, 3, 2 and 7, 3, the figures
logged are 5.0000 / 3.0000 / 2.0000, 7.0000 / 3.0000 and the pool 10, and in these three
cases they sum to the pool. -/
theorem prize_report_shares :
    (∀ totalPrizePool : Nat,
      computedShares 1 totalPrizePool = [] ∧
      reportedShares 1 totalPrizePool = [(100, .pool totalPrizePool)] ∧
      reportedTotal (reportedShares 1 totalPrizePool) = totalPrizePool) ∧
    (∀ totalPrizePool : Nat,
      computedShares 2 totalPrizePool =
        [(prizePoolEther totalPrizePool).mul (Double.nearest 7 10),
          (prizePoolEther totalPrizePool).mul (Double.nearest 3 10)] ∧
      reportedShares 2 totalPrizePool =
        [(70, ((prizePoolEther totalPrizePool).mul (Double.nearest 7 10)).toFixed4),
          (30, ((prizePoolEther totalPrizePool).mul (Double.nearest 3 10)).toFixed4)]) ∧
    (∀ winners totalPrizePool : Nat, winners ≥ 3 →
      computedShares winners totalPrizePool =
        [(prizePoolEther totalPrizePool).mul (Double.nearest 5 10),
          (prizePoolEther totalPrizePool).mul (Double.nearest 3 10),
          (prizePoolEther totalPrizePool).mul (Double.nearest 2 10)] ∧
      reportedShares winners totalPrizePool =
        [(50, ((prizePoolEther totalPrizePool).mul (Double.nearest 5 10)).toFixed4),
          (30, ((prizePoolEther totalPrizePool).mul (Double.nearest 3 10)).toFixed4),
          (20, ((prizePoolEther totalPrizePool).mul (Double.nearest 2 10)).toFixed4)]) ∧
    (List.zipWith Double.same (computedShares 3 10000000000000000000)
        [Double.nearest 5 1, Double.nearest 3 1, Double.nearest 2 1] = [true, true, true] ∧
      List.zipWith Double.same (computedShares 2 10000000000000000000)
        [Double.nearest 7 1, Double.nearest 3 1] = [true, true]) ∧
    (reportedShares 3 10000000000000000000 =
        [(50, .fixed 50000), (30, .fixed 30000), (20, .fixed 20000)] ∧
      reportedShares 2 10000000000000000000 = [(70, .fixed 70000), (30, .fixed 30000)] ∧
      reportedShares 1 10000000000000000000 = [(100, .pool 10000000000000000000)]) ∧
    (reportedTotal (reportedShares 3 10000000000000000000) = 10000000000000000000 ∧
      reportedTotal (reportedShares 2 10000000000000000000) = 10000000000000000000 ∧
      reportedTotal (reportedShares 1 10000000000000000000) = 10000000000000000000) := by
  refine ⟨fun w => ⟨rfl, rfl, ?_⟩, fun w => ⟨rfl, rfl⟩, reportedShares_three_or_more,
    ⟨by decide!, by decide!⟩, ⟨by decide!, by decide!, rfl⟩,
    ⟨by decide!, by decide!, by decide!⟩⟩
  simp [reportedShares, reportedTotal, Figure.wei]

/-- C15, amended, for four winners and a pool of 10 ether: three lines, the shares of the
first three places. -/
theorem prize_report_shares_witness :
    computedShares 4 10000000000000000000 =
      [(prizePoolEther 10000000000000000000).mul (Double.nearest 5 10),
        (prizePoolEther 10000000000000000000).mul (Double.nearest 3 10),
        (prizePoolEther 10000000000000000000).mul (Double.nearest 2 10)] ∧
    reportedShares 4 10000000000000000000 =
      [(50, ((prizePoolEther 10000000000000000000).mul (Double.nearest 5 10)).toFixed4),
        (30, ((prizePoolEther 10000000000000000000).mul (Double.nearest 3 10)).toFixed4),
        (20, ((prizePoolEther 10000000000000000000).mul (Double.nearest 2 10)).toFixed4)] :=
  prize_report_shares.2.2.1 4 10000000000000000000 (by decide)

/-- C16 fails as stated: when the `getAllTournaments` read throws, `fetchAllTournaments`
returns the empty sequence, the same result as for a chain that has no tournament. -/
theorem fetch_failure_counterexample :
    downEnv.onGetAllTournaments readyWorld.calls = none ∧
    fetchAllTournaments downEnv readyWorld =
      ([], ⟨true, 0, 0, [.getAllTournaments]⟩) ∧
    fetchAllTournaments (quietEnv 1010000) readyWorld =
      ([], ⟨true, 0, 0, [.getAllTournaments]⟩) :=
  ⟨rfl, rfl, rfl⟩

/-- C16, amended: whenever the `getAllTournaments` read fails, `fetchAllTournaments`
returns the empty sequence; its only effect is the read on the trace (none when the
handle is unset). -/
theorem fetch_failure_returns_empty (env : Env) (w : World)
    (hfetch : env.onGetAllTournaments w.calls = none) :
    (fetchAllTournaments env w).1 = [] ∧
    ((fetchAllTournaments env w).2 = w ∨
      (fetchAllTournaments env w).2 = w.issue .getAllTournaments) := by
  unfold fetchAllTournaments
  cases hw : w.contractReady
  · exact ⟨rfl, Or.inl rfl⟩
  · simp [hfetch]

/-- C16, amended, on the chain whose list read throws, from the uninitialised manager. -/
theorem fetch_failure_returns_empty_witness :
    (fetchAllTournaments downEnv freshWorld).1 = [] ∧
    ((fetchAllTournaments downEnv freshWorld).2 = freshWorld ∨
      (fetchAllTournaments downEnv freshWorld).2 = freshWorld.issue .getAllTournaments) :=
  fetch_failure_returns_empty downEnv freshWorld rfl

/-- C17 fails as stated: `cancelUnfilledTournament` returns `false` both when the
`cancelTournament` transaction fails and when it skips a Canceled tournament, and so does
`finalizeTournament`; `simulateGameplay` returns `true` both when every submission fails
and when every submission succeeds. -/
theorem executor_result_counterexample :
    (cancelUnfilledTournament (failingEnv 1010000) scenarioTournament readyWorld).1 =
      .ok false ∧
    (cancelUnfilledTournament (failingEnv 1010000) scenarioTournament readyWorld).2.calls =
      [.cancelTournament 1] ∧
    (cancelUnfilledTournament (failingEnv 1010000) { scenarioTournament with status := 3 }
      readyWorld).1 = .ok false ∧
    (cancelUnfilledTournament (failingEnv 1010000) { scenarioTournament with status := 3 }
      readyWorld).2.calls = [] ∧
    (finalizeTournament (failingEnv 3000000) duoTournament readyWorld).1 = .ok false ∧
    (finalizeTournament (failingEnv 3000000) duoTournament readyWorld).2.calls =
      [.finalizeTournament 7] ∧
    (finalizeTournament (failingEnv 3000000) { duoTournament with status := 2 }
      readyWorld).1 = .ok false ∧
    (simulateGameplay (failingEnv 1500000) duoTournament readyWorld).1 = .ok true ∧
    (simulateGameplay (quietEnv 1500000) duoTournament readyWorld).1 = .ok true :=
  ⟨rfl, by decide, rfl, by decide, rfl, by decide, rfl, rfl, rfl⟩

theorem cancelUnfilledTournament_true_iff (env : Env) (t : Tournament) (w : World)
    (hid : t.id ≤ MAX_SAFE_INTEGER) :
    ((cancelUnfilledTournament env t w).1 = .ok true ↔
      ((cancelUnfilledTournament env t w).2.calls = w.calls ++ [.cancelTournament t.id] ∧
        env.onCancelTournament w.calls t.id = true)) ∧
    ((cancelUnfilledTournament env t w).1 = .ok false ↔
      ((cancelUnfilledTournament env t w).2.calls = w.calls ∨
        ((cancelUnfilledTournament env t w).2.calls = w.calls ++ [.cancelTournament t.id] ∧
          env.onCancelTournament w.calls t.id = false))) ∧
    ((cancelUnfilledTournament env t w).2.calls = w.calls ++ [.cancelTournament t.id] ↔
      (w.contractReady = true ∧ t.status = 0 ∧ t.startTime ≤ (currentTimeSeconds env w).1 ∧
        t.currentPlayers < 2 ∧ t.maxPlayers ≤ MAX_SAFE_INTEGER)) := by
  have hnow := currentTime_lt_safe env w
  by_cases hs : t.startTime ≤ MAX_SAFE_INTEGER <;>
  by_cases hc : t.currentPlayers ≤ MAX_SAFE_INTEGER <;>
  by_cases hm : t.maxPlayers ≤ MAX_SAFE_INTEGER <;>
  first
  | simp only [cancelUnfilledTournament, toNumber_of_le hid, catchLoggingId_of_id _ hid,
      toNumber_of_le hs, toNumber_of_le hc, toNumber_of_le hm, callCancelTournament]
  | simp only [cancelUnfilledTournament, toNumber_of_le hid, catchLoggingId_of_id _ hid,
      toNumber_of_le hs, toNumber_of_le hc, toNumber_of_gt (Nat.not_le.1 hm),
      callCancelTournament]
  | simp only [cancelUnfilledTournament, toNumber_of_le hid, catchLoggingId_of_id _ hid,
      toNumber_of_le hs, toNumber_of_gt (Nat.not_le.1 hc), toNumber_of_le hm,
      callCancelTournament]
  | simp only [cancelUnfilledTournament, toNumber_of_le hid, catchLoggingId_of_id _ hid,
      toNumber_of_le hs, toNumber_of_gt (Nat.not_le.1 hc), toNumber_of_gt (Nat.not_le.1 hm),
      callCancelTournament]
  | simp only [cancelUnfilledTournament, toNumber_of_le hid, catchLoggingId_of_id _ hid,
      toNumber_of_gt (Nat.not_le.1 hs), toNumber_of_le hc, toNumber_of_le hm,
      callCancelTournament]
  | simp only [cancelUnfilledTournament, toNumber_of_le hid, catchLoggingId_of_id _ hid,
      toNumber_of_gt (Nat.not_le.1 hs), toNumber_of_le hc, toNumber_of_gt (Nat.not_le.1 hm),
      callCancelTournament]
  | simp only [cancelUnfilledTournament, toNumber_of_le hid, catchLoggingId_of_id _ hid,
      toNumber_of_gt (Nat.not_le.1 hs), toNumber_of_gt (Nat.not_le.1 hc), toNumber_of_le hm,
      callCancelTournament]
  | simp only [cancelUnfilledTournament, toNumber_of_le hid, catchLoggingId_of_id _ hid,
      toNumber_of_gt (Nat.not_le.1 hs), toNumber_of_gt (Nat.not_le.1 hc),
      toNumber_of_gt (Nat.not_le.1 hm), callCancelTournament]
  all_goals split_ifs
  all_goals simp_all [currentTimeSeconds, dateNowMs, World.issue]
  all_goals unfold MAX_SAFE_INTEGER at *
  all_goals omega

theorem finalizeTournament_true_iff (env : Env) (t : Tournament) (w : World)
    (hid : t.id ≤ MAX_SAFE_INTEGER) :
    ((finalizeTournament env t w).1 = .ok true ↔
      ((finalizeTournament env t w).2.calls =
          w.calls ++ [.finalizeTournament t.id, .getTournamentWinners t.id] ∧
        env.onFinalizeTournament w.calls t.id = true)) ∧
    ((finalizeTournament env t w).1 = .ok false ↔
      ((finalizeTournament env t w).2.calls = w.calls ∨
        ((finalizeTournament env t w).2.calls = w.calls ++ [.finalizeTournament t.id] ∧
          env.onFinalizeTournament w.calls t.id = false))) ∧
    (.finalizeTournament t.id ∈ (finalizeTournament env t w).2.calls.drop w.calls.length ↔
      (w.contractReady = true ∧ t.status = 1 ∧ t.endTime < (currentTimeSeconds env w).1)) := by
  have hnow := currentTime_lt_safe env w
  by_cases he : t.endTime ≤ MAX_SAFE_INTEGER <;>
  first
  | simp only [finalizeTournament, toNumber_of_le hid, catchLoggingId_of_id _ hid,
      toNumber_of_le he, callFinalizeTournament, callGetTournamentWinners]
  | simp only [finalizeTournament, toNumber_of_le hid, catchLoggingId_of_id _ hid,
      toNumber_of_gt (Nat.not_le.1 he), callFinalizeTournament, callGetTournamentWinners]
  all_goals split_ifs
  all_goals simp_all [currentTimeSeconds, dateNowMs, World.issue]
  all_goals unfold MAX_SAFE_INTEGER at *
  all_goals omega

theorem simulateGameplay_true_iff (env : Env) (t : Tournament) (w : World)
    (hid : t.id ≤ MAX_SAFE_INTEGER) :
    (simulateGameplay env t w).1 = .ok true ↔
      (t.status = 1 ∧ ∀ first rest s, t.players = first :: rest →
        (callGetPlayerScore env t.id first w).1 = some s → s ≤ MAX_SAFE_INTEGER → s = 0) := by
  constructor
  · intro h
    by_cases hstatus : t.status = 1
    · refine ⟨hstatus, fun first rest s hp hs hle => ?_⟩
      by_contra h0
      have hpos : s > 0 := Nat.pos_of_ne_zero h0
      simp [simulateGameplay, toNumber_of_le hid, hstatus, hp, hs, toNumber_of_le hle,
        hpos] at h
    · simp [simulateGameplay, toNumber_of_le hid, hstatus] at h
  · rintro ⟨hstatus, hprobe⟩
    rw [simulateGameplay_runs env t w hid hstatus hprobe]

theorem simulateGameplay_ignores_submissions (env : Env) (t : Tournament) (w : World)
    (onSubmitScore : List Call → Nat → Address → ℚ → Bool) :
    (simulateGameplay { env with onSubmitScore := onSubmitScore } t w).1 =
      (simulateGameplay env t w).1 := by
  unfold simulateGameplay
  repeat' split
  all_goals simp_all [callGetPlayerScore]

/-- C17, amended: on a snapshot whose id converts each executor returns a boolean.
`cancelUnfilledTournament` returns `true` exactly when its `cancelTournament` transaction
was issued and succeeded, and `false` exactly when it issued no call (a skip) or the
transaction was issued and failed; the transaction is issued exactly when the handle is
set, the status is Open, the start time is reached, fewer than two players are enrolled
and `maxPlayers` converts. `finalizeTournament` returns `true` exactly when its
`finalizeTournament` transaction was issued and succeeded (the winners read following),
and `false` exactly when it issued no call or the transaction failed; the transaction is
issued exactly when the handle is set, the status is InProgress and the end time is
passed. `simulateGameplay` returns `true` exactly when the status is InProgress and the
probe of the first player does not return a positive convertible score; it has then gone
through the whole roster, and its result does not depend on how the chain answers the
submissions. -/
theorem executor_results_boolean (env : Env) (t : Tournament) (w : World)
    (hid : t.id ≤ MAX_SAFE_INTEGER) :
    (((cancelUnfilledTournament env t w).1 = .ok true ∨
        (cancelUnfilledTournament env t w).1 = .ok false) ∧
      ((finalizeTournament env t w).1 = .ok true ∨
        (finalizeTournament env t w).1 = .ok false) ∧
      ((simulateGameplay env t w).1 = .ok true ∨
        (simulateGameplay env t w).1 = .ok false)) ∧
    (((cancelUnfilledTournament env t w).1 = .ok true ↔
        ((cancelUnfilledTournament env t w).2.calls = w.calls ++ [.cancelTournament t.id] ∧
          env.onCancelTournament w.calls t.id = true)) ∧
      ((cancelUnfilledTournament env t w).1 = .ok false ↔
        ((cancelUnfilledTournament env t w).2.calls = w.calls ∨
          ((cancelUnfilledTournament env t w).2.calls =
              w.calls ++ [.cancelTournament t.id] ∧
            env.onCancelTournament w.calls t.id = false))) ∧
      ((cancelUnfilledTournament env t w).2.calls = w.calls ++ [.cancelTournament t.id] ↔
        (w.contractReady = true ∧ t.status = 0 ∧
          t.startTime ≤ (currentTimeSeconds env w).1 ∧ t.currentPlayers < 2 ∧
          t.maxPlayers ≤ MAX_SAFE_INTEGER))) ∧
    (((finalizeTournament env t w).1 = .ok true ↔
        ((finalizeTournament env t w).2.calls =
            w.calls ++ [.finalizeTournament t.id, .getTournamentWinners t.id] ∧
          env.onFinalizeTournament w.calls t.id = true)) ∧
      ((finalizeTournament env t w).1 = .ok false ↔
        ((finalizeTournament env t w).2.calls = w.calls ∨
          ((finalizeTournament env t w).2.calls = w.calls ++ [.finalizeTournament t.id] ∧
            env.onFinalizeTournament w.calls t.id = false))) ∧
      (.finalizeTournament t.id ∈ (finalizeTournament env t w).2.calls.drop w.calls.length ↔
        (w.contractReady = true ∧ t.status = 1 ∧
          t.endTime < (currentTimeSeconds env w).1))) ∧
    (((simulateGameplay env t w).1 = .ok true ↔
        (t.status = 1 ∧ ∀ first rest s, t.players = first :: rest →
          (callGetPlayerScore env t.id first w).1 = some s → s ≤ MAX_SAFE_INTEGER → s = 0)) ∧
      ((simulateGameplay env t w).1 = .ok true →
        (simulateGameplay env t w).2 =
          submitScores env t.id t.gameType t.players
            (match t.players with
              | [] => w
              | first :: _ => (callGetPlayerScore env t.id first w).2)) ∧
      (∀ onSubmitScore : List Call → Nat → Address → ℚ → Bool,
        (simulateGameplay { env with onSubmitScore := onSubmitScore } t w).1 =
          (simulateGameplay env t w).1)) := by
  have hb : ∀ a, (runAction env t a w).1 = .ok true ∨ (runAction env t a w).1 = .ok false := by
    intro a
    obtain ⟨b, hb⟩ := runAction_ok env t a w hid
    cases b
    · exact Or.inr hb
    · exact Or.inl hb
  refine ⟨⟨hb .cancel, hb .finalize, hb .simulate⟩,
    cancelUnfilledTournament_true_iff env t w hid, finalizeTournament_true_iff env t w hid,
    simulateGameplay_true_iff env t w hid, fun h => ?_,
    simulateGameplay_ignores_submissions env t w⟩
  have h2 := (simulateGameplay_true_iff env t w hid).1 h
  rw [simulateGameplay_runs env t w hid h2.1 h2.2]

/-- C17, amended, at the scenario tournament ten seconds past its start on a quiet chain:
the cancellation was issued and succeeded, so `cancelUnfilledTournament` returns `true`. -/
theorem executor_results_boolean_witness :
    (cancelUnfilledTournament (quietEnv 1010000) scenarioTournament readyWorld).1 = .ok true :=
  ((executor_results_boolean (quietEnv 1010000) scenarioTournament readyWorld
    (by decide)).2.1.1).2 ⟨by decide, rfl⟩

theorem strictNotEqual_of_ne {a : JsValue} {configured : Option String}
    (h : a ≠ processEnvValue configured) :
    strictNotEqual a (processEnvValue configured) = true := by
  cases configured <;> cases a <;> simp_all [strictNotEqual, processEnvValue]

/-- C18: on each of the five admin endpoints a request whose `adminKey` differs from
`process.env.ADMIN_KEY` is answered 403 "Unauthorized" and leaves the server state as it
was: no chain call, no pass, no file write. -/
theorem admin_key_mismatch (env : ServerEnv) (endpoint : Endpoint) (body : RequestBody)
    (s : Server) (hkey : body.adminKey ≠ processEnvValue env.adminKey) :
    (handle env endpoint body s).1.status = 403 ∧
    (handle env endpoint body s).1.error = some "Unauthorized" ∧
    (handle env endpoint body s).2 = s ∧
    (handle env endpoint body s).2.calls = s.calls ∧
    (handle env endpoint body s).2.manager.calls = s.manager.calls ∧
    (handle env endpoint body s).2.passes = s.passes ∧
    (handle env endpoint body s).2.fileWrites = s.fileWrites := by
  have h := strictNotEqual_of_ne hkey
  cases endpoint <;>
    simp [handle, postSubmitScore, postFinalizeTournament, postManageTournaments,
      postSimulateTournament, postUpdateContractAddresses, h, unauthorized]

/-- C18 with the key "guess" against "secret", and with no key at all. -/
theorem admin_key_mismatch_witness :
    (handle quietServerEnv .manageTournaments (bodyWithKey (.string "guess"))
      initialServer).1.status = 403 ∧
    (handle quietServerEnv .updateContractAddresses (bodyWithKey .undefined)
      initialServer).2 = initialServer :=
  ⟨(admin_key_mismatch quietServerEnv .manageTournaments (bodyWithKey (.string "guess"))
      initialServer (by decide)).1,
    (admin_key_mismatch quietServerEnv .updateContractAddresses (bodyWithKey .undefined)
      initialServer (by decide)).2.2.1⟩

/-- C19 at the failing inputs: with the valid key, `/api/manage-tournaments` answers 200
with `success: true` when the pass ends in its fatal handler (initialisation fails) and
when the list read fails; `/api/submit-score` answers 500 when its call fails. -/
theorem manage_endpoint_success_on_failed_pass :
    ((manageTournaments initFailingServerEnv.chain initialServer.manager).1 = .fatal ∧
      (postManageTournaments initFailingServerEnv (bodyWithKey (.string "secret"))
        initialServer).1 =
        ⟨200, some true, none, some "Tournament management task executed successfully"⟩) ∧
    ((manageTournaments fetchFailingServerEnv.chain initialServer.manager).1 =
        .nothingToManage ∧
      fetchFailingServerEnv.chain.onGetAllTournaments [] = none ∧
      (postManageTournaments fetchFailingServerEnv (bodyWithKey (.string "secret"))
        initialServer).1 =
        ⟨200, some true, none, some "Tournament management task executed successfully"⟩) ∧
    (postSubmitScore { quietServerEnv with onServerSubmitScore := fun _ _ _ _ => false }
        (bodyWithKey (.string "secret")) { initialServer with contractReady := true }).1 =
      ⟨500, none, some "Failed to submit score", none⟩ := by
  refine ⟨⟨by decide, by decide⟩, ⟨by decide, rfl, by decide⟩, by decide⟩

/-- C20 fails as stated: a second `startTournamentManager` runs a second pass and arms a
second timer, and `stopTournamentManager` then clears only the last one. -/
theorem double_start_counterexample :
    (startTournamentManager quietServerEnv
      (startTournamentManager quietServerEnv initialServer)).timers = [0, 1] ∧
    (startTournamentManager quietServerEnv
      (startTournamentManager quietServerEnv initialServer)).passes = 2 ∧
    (stopTournamentManager (startTournamentManager quietServerEnv
      (startTournamentManager quietServerEnv initialServer))).timers = [0] := by
  decide

/-- C20, amended: every call of `startTournamentManager` launches one pass and arms one
more timer, whose handle replaces the stored one; after a single start from the initial
state, as on `app.listen`, exactly one timer is armed. -/
theorem start_always_arms (env : ServerEnv) (s : Server) :
    (startTournamentManager env s).timers = s.timers ++ [s.nextTimer] ∧
    (startTournamentManager env s).timers.length = s.timers.length + 1 ∧
    (startTournamentManager env s).passes = s.passes + 1 ∧
    (startTournamentManager env s).interval = some s.nextTimer ∧
    (startTournamentManager env initialServer).timers.length = 1 ∧
    (onListen env initialServer).timers.length = 1 ∧
    (onListen env initialServer).passes = 1 := by
  refine ⟨rfl, by simp [startTournamentManager], rfl, rfl, rfl, ?_, ?_⟩
  · unfold onListen serverInitializeContract
    split <;> rfl
  · unfold onListen serverInitializeContract
    split <;> rfl

/-- C11 at the scenario tournament with two players of four, ten seconds past its start. -/
theorem cancel_keeps_minimum_filled_witness :
    (cancelUnfilledTournament (quietEnv 1010000) { scenarioTournament with currentPlayers := 2 }
      readyWorld).1 = .ok false ∧
    (cancelUnfilledTournament (quietEnv 1010000) { scenarioTournament with currentPlayers := 2 }
      readyWorld).2.calls = readyWorld.calls :=
  ⟨((cancel_keeps_minimum_filled.1 (quietEnv 1010000)
      { scenarioTournament with currentPlayers := 2 } readyWorld rfl (by decide)
      (by decide)).2.1) (by decide),
    (cancel_keeps_minimum_filled.1 (quietEnv 1010000)
      { scenarioTournament with currentPlayers := 2 } readyWorld rfl (by decide)
      (by decide)).1⟩

/-! ## Boundary and counting facts, the scheduler and the frontend (C21 to C30) -/

/-- C23: for a tournament read with status InProgress and `now = endTime`, the executor
reading the same clock value, the loop selects the finalize branch, `finalizeTournament`
returns `false` (it requires `now > endTime`) and the iteration issues no chain call. -/
theorem finalize_boundary_no_write (env : Env) (t : Tournament) (w : World) (r : Reading)
    (hread : (readTournament env t w).1 = .ok r) (hstatus : r.status = 1)
    (hnow : r.currentTime = r.endTime)
    (hsame : (currentTimeSeconds env (readTournament env t w).2).1 = r.currentTime) :
    selectAction r = .finalize ∧
    processTournament env t w =
      (.ok false, (currentTimeSeconds env (readTournament env t w).2).2) ∧
    (processTournament env t w).2.calls = w.calls := by
  obtain ⟨hr, hconv⟩ := readTournament_ok hread
  simp only [Tournament.convertible, decide_eq_true_eq] at hconv
  obtain ⟨hid, _, hend, _, _⟩ := hconv
  have hsel : selectAction r = .finalize := by
    unfold selectAction
    rw [if_neg (by omega), if_neg (by omega), if_pos ⟨hstatus, by omega⟩]
  have hst : t.status = 1 := by
    rw [hr] at hstatus
    exact hstatus
  have hle : (currentTimeSeconds env (readTournament env t w).2).1 ≤ t.endTime := by
    rw [hsame, hnow, hr]
  have hfin : finalizeTournament env t (readTournament env t w).2 =
      (.ok false, (currentTimeSeconds env (readTournament env t w).2).2) := by
    simp only [finalizeTournament, toNumber_of_le hid, toNumber_of_le hend, hst, ne_eq,
      not_true_eq_false, if_false, if_pos hle]
  refine ⟨hsel, ?_, ?_⟩
  · rw [processTournament_of_read hread, hsel]
    exact hfin
  · rw [processTournament_of_read hread, hsel]
    show (finalizeTournament env t (readTournament env t w).2).2.calls = w.calls
    rw [hfin]
    exact (readTournament_calls env t w).1

/-- C23 at tournament #7 (end time 2000 s) with the clock at exactly 2000 s, for the loop
body and for a whole pass. -/
theorem finalize_boundary_no_write_witness :
    selectAction ⟨7, 1, 2000, 1000, 2000, 2, 2⟩ = .finalize ∧
    (processTournament (quietEnv 2000000) duoTournament readyWorld).2.calls =
      readyWorld.calls ∧
    writes (manageTournaments boundaryEnv freshWorld).2.calls = [] :=
  ⟨(finalize_boundary_no_write (quietEnv 2000000) duoTournament readyWorld
      ⟨7, 1, 2000, 1000, 2000, 2, 2⟩ rfl rfl rfl rfl).1,
    (finalize_boundary_no_write (quietEnv 2000000) duoTournament readyWorld
      ⟨7, 1, 2000, 1000, 2000, 2, 2⟩ rfl rfl rfl rfl).2.2,
    by decide⟩

/-- C25: on an InProgress snapshot with a non-empty roster (and an id that converts), when
the `getPlayerScore` read for the first player throws, `simulateGameplay` returns `true`
and its calls are the failed probe followed by one `submitScore` per player of the
roster, in roster order; when the probe throws because the contract handle is unset, it
returns `true` as well, every submission throwing in the same way before any call. -/
theorem probe_failure_continues (env : Env) (t : Tournament) (w : World)
    (first : Address) (rest : List Address)
    (hid : t.id ≤ MAX_SAFE_INTEGER) (hstatus : t.status = 1)
    (hplayers : t.players = first :: rest) :
    (w.contractReady = true → env.onGetPlayerScore w.calls t.id first = none →
      (simulateGameplay env t w).1 = .ok true ∧
      ∃ scores : List ℚ, scores.length = t.players.length ∧
        (simulateGameplay env t w).2.calls =
          w.calls ++ [.getPlayerScore t.id first] ++
            List.zipWith (fun p s => Call.submitScore t.id p s) t.players scores) ∧
    (w.contractReady = false →
      (simulateGameplay env t w).1 = .ok true ∧
      (simulateGameplay env t w).2.calls = w.calls) := by
  constructor
  · intro hready hprobe
    have hp : ∀ first' rest' s, t.players = first' :: rest' →
        (callGetPlayerScore env t.id first' w).1 = some s → s ≤ MAX_SAFE_INTEGER → s = 0 := by
      intro first' rest' s h1 h2 _
      rw [hplayers] at h1
      injection h1 with h1 _
      subst h1
      simp [callGetPlayerScore, hready, hprobe] at h2
    rw [simulateGameplay_runs env t w hid hstatus hp]
    refine ⟨rfl, ?_⟩
    obtain ⟨_, scores, hlen, hcalls⟩ := submitScores_calls env t.id t.gameType t.players
      (callGetPlayerScore env t.id first w).2
    refine ⟨scores, hlen, ?_⟩
    rw [hplayers] at hcalls ⊢
    simp only []
    rw [hcalls]
    simp [callGetPlayerScore, hready, World.issue]
  · intro hready
    have hp : ∀ first' rest' s, t.players = first' :: rest' →
        (callGetPlayerScore env t.id first' w).1 = some s → s ≤ MAX_SAFE_INTEGER → s = 0 := by
      intro first' rest' s _ h2 _
      simp [callGetPlayerScore, hready] at h2
    rw [simulateGameplay_runs env t w hid hstatus hp]
    refine ⟨rfl, ?_⟩
    obtain ⟨_, scores, _, hcalls⟩ := submitScores_calls env t.id t.gameType t.players
      (callGetPlayerScore env t.id first w).2
    rw [hplayers] at hcalls ⊢
    simp only []
    rw [hcalls]
    simp [callGetPlayerScore, hready]

/-- C25 at tournament #7 on a chain whose score read throws. -/
theorem probe_failure_continues_witness :
    (simulateGameplay probeFailingEnv duoTournament readyWorld).1 = .ok true ∧
    ∃ scores : List ℚ, scores.length = duoTournament.players.length ∧
      (simulateGameplay probeFailingEnv duoTournament readyWorld).2.calls =
        readyWorld.calls ++ [.getPlayerScore duoTournament.id "0xA"] ++
          List.zipWith (fun p s => Call.submitScore duoTournament.id p s)
            duoTournament.players scores :=
  (probe_failure_continues probeFailingEnv duoTournament readyWorld "0xA" ["0xB"]
    (by decide) rfl rfl).1 rfl rfl

/-- C26: when the fetch returns a non-empty list, at the end of the pass
`processed + errors` is the number of fetched tournaments. -/
theorem processed_plus_errors (env : Env) (w : World) (ts : List Tournament)
    (hready : w.contractReady = true ∨ env.initSucceeds = true)
    (hfetch : env.onGetAllTournaments w.calls = some ts) (hne : ts ≠ []) :
    (manageTournaments env w).1.processed + (manageTournaments env w).1.errors = ts.length := by
  rw [manageTournaments_of_fetch env w ts hready hfetch hne]
  obtain ⟨h1, h2⟩ := processAll_counts env ts ⟨0, 0⟩ (worldAfterFetch w)
  simp only [PassOutcome.processed, PassOutcome.errors, h1, h2, Nat.zero_add]
  have hsplit : ∀ l : List Tournament,
      (l.filter (fun t => t.convertible)).length +
        (l.filter (fun t => !t.convertible)).length = l.length := by
    intro l
    induction l with
    | nil => rfl
    | cons t rest ih =>
      cases hc : t.convertible <;> simp [hc] <;> omega
  exact hsplit ts

/-- C26 on the batch of three with one throwing tournament. -/
theorem processed_plus_errors_witness :
    (manageTournaments batchEnv freshWorld).1.processed +
      (manageTournaments batchEnv freshWorld).1.errors = batchOfThree.length :=
  processed_plus_errors batchEnv freshWorld batchOfThree (Or.inr rfl) rfl (by decide)

theorem halfPoint_score :
    (generateRandomScore halfPointEnv "P2W" readyWorld).1 = 101 / 2 := by
  have e3 : ("P2W" : String) ≠ "Default" := by decide
  have hfloor : ⌊(1 / 900 : ℚ) * 900⌋ = 1 := by
    rw [Int.floor_eq_iff]
    constructor <;> norm_num
  simp only [generateRandomScore, mathRandom, if_neg e3, if_true, halfPointEnv, readyWorld]
  norm_num [hfloor]

theorem not_integer_half : ¬ ∃ n : ℤ, (101 / 2 : ℚ) = (n : ℚ) := by
  rintro ⟨n, hn⟩
  have h2 : (101 : ℚ) = ((2 * n : ℤ) : ℚ) := by
    push_cast
    linarith
  have h3 : (101 : ℤ) = 2 * n := by exact_mod_cast h2
  omega

/-- C24: for every game type other than "P2W" the score `generateRandomScore` returns is
an integer; for "P2W", with base score 101 and multiplier 0.5, it is 50.5, not an
integer, and `simulateGameplay` hands this value to `submitScore` as it is. -/
theorem score_integrality :
    (∀ (env : Env) (w : World) (gameType : String), gameType ≠ "P2W" →
      ∃ n : ℤ, (generateRandomScore env gameType w).1 = (n : ℚ)) ∧
    ((generateRandomScore halfPointEnv "P2W" readyWorld).1 = 101 / 2 ∧
      ¬ ∃ n : ℤ, (generateRandomScore halfPointEnv "P2W" readyWorld).1 = (n : ℚ)) ∧
    (∃ rest : List Call,
      (simulateGameplay halfPointEnv payToWinTournament readyWorld).2.calls =
        [.getPlayerScore 7 "0xA", .submitScore 7 "0xA" (101 / 2)] ++ rest) := by
  refine ⟨?_, ⟨halfPoint_score, ?_⟩, ?_⟩
  · intro env w gameType hg
    simp only [generateRandomScore, mathRandom, if_neg hg]
    split_ifs
    · exact ⟨⌊env.random w.draws * 900⌋ + 100, by push_cast; rfl⟩
    · exact ⟨min (⌊env.random w.draws * 900⌋ + 100) 800, by push_cast; rfl⟩
    · exact ⟨⌊env.random w.draws * 900⌋ + 100, by push_cast; rfl⟩
  · rw [halfPoint_score]
    exact not_integer_half
  · have hs := halfPoint_score
    refine ⟨[.submitScore 7 "0xB"
      (generateRandomScore halfPointEnv "P2W" ⟨true, 0, 2, [.getPlayerScore 7 "0xA",
        .submitScore 7 "0xA" (generateRandomScore halfPointEnv "P2W" readyWorld).1]⟩).1], ?_⟩
    rw [← hs]
    rfl

/-- C24 for game type "Default" on a quiet chain. -/
theorem score_integrality_witness :
    ∃ n : ℤ, (generateRandomScore (quietEnv 1500000) "Default" readyWorld).1 = (n : ℚ) :=
  score_integrality.1 (quietEnv 1500000) readyWorld "Default" (by decide)

theorem stopTournamentManager_idem (s : Server) :
    stopTournamentManager (stopTournamentManager s) = stopTournamentManager s := by
  unfold stopTournamentManager
  cases h : s.interval with
  | none => simp [h]
  | some timer => simp [h, List.filter_filter]

theorem stopTournamentManager_unarmed (s : Server) (h : s.timers = []) :
    stopTournamentManager s = s := by
  unfold stopTournamentManager
  cases s
  simp_all
  split <;> rfl

theorem stopTournamentManager_clears (s : Server)
    (h : ∀ k ∈ s.timers, s.interval = some k) : (stopTournamentManager s).timers = [] := by
  unfold stopTournamentManager
  cases hi : s.interval with
  | none =>
    simp only []
    cases ht : s.timers with
    | nil => rfl
    | cons k rest =>
      have := h k (by rw [ht]; exact List.mem_cons_self _ _)
      rw [hi] at this
      cases this
  | some timer =>
    simp only [List.filter_eq_nil_iff]
    intro k hk
    have := h k hk
    rw [hi] at this
    injection this with this
    simp [this]

theorem handle_scheduler (env : ServerEnv) (endpoint : Endpoint) (body : RequestBody)
    (s : Server) :
    (handle env endpoint body s).2.timers = s.timers ∧
    (handle env endpoint body s).2.interval = s.interval := by
  cases endpoint <;>
    simp only [handle, postSubmitScore, postFinalizeTournament, postManageTournaments,
      postSimulateTournament, postUpdateContractAddresses, awaitManageTournaments] <;>
    repeat' split
  all_goals exact ⟨rfl, rfl⟩

theorem serverStep_timers (env : ServerEnv) (s : Server) (event : ServerEvent) :
    (serverStep env s event).interval = s.interval ∧
    ∀ k ∈ (serverStep env s event).timers, k ∈ s.timers := by
  cases event with
  | timer k =>
    simp only [serverStep, timerFires, awaitManageTournaments]
    split
    · exact ⟨rfl, fun _ h => h⟩
    · exact ⟨rfl, fun _ h => h⟩
  | request endpoint body =>
    obtain ⟨h1, h2⟩ := handle_scheduler env endpoint body s
    simp only [serverStep]
    rw [h1, h2]
    exact ⟨rfl, fun _ h => h⟩
  | stop =>
    simp only [serverStep, stopTournamentManager]
    split
    · exact ⟨rfl, fun k hk => (List.mem_filter.1 hk).1⟩
    · exact ⟨rfl, fun _ h => h⟩

theorem runServer_invariant (env : ServerEnv) (events : List ServerEvent) :
    (runServer env events).interval = some 0 ∧
    ∀ k ∈ (runServer env events).timers, k = 0 := by
  have hstart : (onListen env initialServer).interval = some 0 ∧
      ∀ k ∈ (onListen env initialServer).timers, k = 0 := by
    unfold onListen serverInitializeContract
    split <;> exact ⟨rfl, fun k hk => by simpa [startTournamentManager, initialServer] using hk⟩
  have hfold : ∀ (evs : List ServerEvent) (s : Server),
      (s.interval = some 0 ∧ ∀ k ∈ s.timers, k = 0) →
      ((evs.foldl (serverStep env) s).interval = some 0 ∧
        ∀ k ∈ (evs.foldl (serverStep env) s).timers, k = 0) := by
    intro evs
    induction evs with
    | nil => intro s h; exact h
    | cons ev rest ih =>
      intro s h
      obtain ⟨h1, h2⟩ := serverStep_timers env s ev
      exact ih _ ⟨by rw [h1]; exact h.1, fun k hk => h.2 k (h2 k hk)⟩
  exact hfold events _ hstart

/-- C21: `stopTournamentManager` is idempotent and changes nothing when no timer is
armed; when the armed timers are the one whose handle is stored, it leaves none armed and a
firing of any timer then launches no pass; in every run of the server (one start on
listen, then timer firings, requests and stops) that condition holds, and after a stop
no timer is armed and no timer firing changes the state. -/
theorem stop_idempotent :
    (∀ s : Server, stopTournamentManager (stopTournamentManager s) = stopTournamentManager s) ∧
    (∀ s : Server, s.timers = [] → stopTournamentManager s = s) ∧
    (∀ s : Server, (∀ k ∈ s.timers, s.interval = some k) →
      (stopTournamentManager s).timers = [] ∧
      ∀ (env : ServerEnv) (timer : Nat),
        timerFires env timer (stopTournamentManager s) = stopTournamentManager s) ∧
    (∀ (env : ServerEnv) (events : List ServerEvent),
      ∀ k ∈ (runServer env events).timers, (runServer env events).interval = some k) ∧
    (∀ (env : ServerEnv) (before after : List ServerEvent) (timer : Nat),
      (runServer env (before ++ .stop :: after)).timers = [] ∧
      runServer env (before ++ .stop :: after ++ [.timer timer]) =
        runServer env (before ++ .stop :: after)) := by
  have hinv : ∀ (env : ServerEnv) (events : List ServerEvent),
      ∀ k ∈ (runServer env events).timers, (runServer env events).interval = some k := by
    intro env events k hk
    obtain ⟨h1, h2⟩ := runServer_invariant env events
    rw [h1, h2 k hk]
  have hstay : ∀ (env : ServerEnv) (evs : List ServerEvent) (s : Server), s.timers = [] →
      (evs.foldl (serverStep env) s).timers = [] := by
    intro env evs
    induction evs with
    | nil => intro s h; exact h
    | cons ev rest ih =>
      intro s h
      apply ih
      have h2 := (serverStep_timers env s ev).2
      rw [h] at h2
      exact List.eq_nil_iff_forall_not_mem.2 (fun k hk => by simpa using h2 k hk)
  refine ⟨stopTournamentManager_idem, stopTournamentManager_unarmed, ?_, hinv, ?_⟩
  · intro s h
    have hc := stopTournamentManager_clears s h
    refine ⟨hc, fun env timer => ?_⟩
    simp [timerFires, hc]
  · intro env before after timer
    have hempty : (runServer env (before ++ .stop :: after)).timers = [] := by
      unfold runServer
      rw [List.foldl_append, List.foldl_cons]
      apply hstay
      exact stopTournamentManager_clears _ (hinv env before)
    refine ⟨hempty, ?_⟩
    have hlast : ∀ evs : List ServerEvent, (runServer env evs).timers = [] →
        runServer env (evs ++ [.timer timer]) = runServer env evs := by
      intro evs h
      unfold runServer at h ⊢
      rw [List.foldl_append]
      simp only [List.foldl_cons, List.foldl_nil, serverStep, timerFires, h]
      rfl
    have happ : before ++ .stop :: after ++ [.timer timer] =
        (before ++ .stop :: after) ++ [.timer timer] := by simp
    rw [happ]
    exact hlast _ hempty

/-- C21 on the server right after `app.listen`. -/
theorem stop_idempotent_witness :
    (stopTournamentManager (onListen quietServerEnv initialServer)).timers = [] ∧
    timerFires quietServerEnv 0 (stopTournamentManager (onListen quietServerEnv initialServer)) =
      stopTournamentManager (onListen quietServerEnv initialServer) :=
  ⟨(stop_idempotent.2.2.1 (onListen quietServerEnv initialServer) (by decide)).1,
    (stop_idempotent.2.2.1 (onListen quietServerEnv initialServer) (by decide)).2
      quietServerEnv 0⟩

/-- C27 at the failing input: when `ADMIN_KEY` is set, a request without `adminKey` is
answered 403 by every admin endpoint with the state unchanged; when `ADMIN_KEY` is not
set, such a request passes the check: the address file is written, a pass is run, and
the score endpoint goes on to its contract call. -/
theorem missing_key_rejected_when_configured :
    (∀ (env : ServerEnv) (endpoint : Endpoint) (body : RequestBody) (s : Server) (k : String),
      env.adminKey = some k → body.adminKey = .undefined →
      (handle env endpoint body s).1.status = 403 ∧ (handle env endpoint body s).2 = s) ∧
    ((handle openServerEnv .updateContractAddresses (bodyWithKey .undefined)
        initialServer).1.status = 200 ∧
      (handle openServerEnv .updateContractAddresses (bodyWithKey .undefined)
        initialServer).2.fileWrites = [(.undefined, .undefined)]) ∧
    ((handle openServerEnv .manageTournaments (bodyWithKey .undefined)
        initialServer).1.status = 200 ∧
      (handle openServerEnv .manageTournaments (bodyWithKey .undefined)
        initialServer).2.passes = 1) ∧
    (handle openServerEnv .submitScore (bodyWithKey .undefined)
        initialServer).1.status = 500 ∧
    (handle openServerEnv .submitScore (bodyWithKey .undefined)
        { initialServer with contractReady := true }).1.status = 200 := by
  refine ⟨?_, ⟨by decide, by decide⟩, ⟨by decide, by decide⟩, by decide, by decide⟩
  intro env endpoint body s k hk hbody
  have hne : body.adminKey ≠ processEnvValue env.adminKey := by
    rw [hk, hbody]
    simp [processEnvValue]
  have h := strictNotEqual_of_ne hne
  cases endpoint <;>
    simp [handle, postSubmitScore, postFinalizeTournament, postManageTournaments,
      postSimulateTournament, postUpdateContractAddresses, h, unauthorized]

/-- C27 with the key "secret" configured and a request without key. -/
theorem missing_key_rejected_when_configured_witness :
    (handle quietServerEnv .finalizeTournament (bodyWithKey .undefined)
      initialServer).1.status = 403 ∧
    (handle quietServerEnv .finalizeTournament (bodyWithKey .undefined)
      initialServer).2 = initialServer :=
  missing_key_rejected_when_configured.1 quietServerEnv .finalizeTournament
    (bodyWithKey .undefined) initialServer "secret" rfl rfl

/-- C28 at the failing inputs: for a pool of 10 ether the winners table shows 5.0000 for a
single winner and 5.0000 / 3.0000 for two winners, where `finalizeTournament` reports the
pool (100%) and 7.0000 / 3.0000 (70% / 30%). For three winners and this pool the table
and the report agree on 5.0000 / 3.0000 / 2.0000, whereas for a pool of 0.00075 ether
the third row shows 0.0001 (`p * 20 / 100`) and the report logs 0.0002 (`p * 0.2`). -/
theorem winners_table_mismatch :
    (winnersTable ["0xA"] 10000000000000000000 = [.fixed 50000] ∧
      reportedShares 1 10000000000000000000 = [(100, .pool 10000000000000000000)] ∧
      (Figure.pool 10000000000000000000).wei = (Figure.fixed 100000).wei) ∧
    (winnersTable ["0xA", "0xB"] 10000000000000000000 = [.fixed 50000, .fixed 30000] ∧
      reportedShares 2 10000000000000000000 = [(70, .fixed 70000), (30, .fixed 30000)]) ∧
    (winnersTable ["0xA", "0xB", "0xC"] 10000000000000000000 =
        [.fixed 50000, .fixed 30000, .fixed 20000] ∧
      reportedShares 3 10000000000000000000 =
        [(50, .fixed 50000), (30, .fixed 30000), (20, .fixed 20000)]) ∧
    (winnersTable ["0xA", "0xB", "0xC"] 750000000000000 = [.fixed 4, .fixed 2, .fixed 1] ∧
      reportedShares 3 750000000000000 = [(50, .fixed 4), (30, .fixed 2), (20, .fixed 2)]) := by
  refine ⟨⟨by decide!, rfl, by decide!⟩, ⟨by decide!, by decide!⟩, ⟨by decide!, by decide!⟩,
    ⟨by decide!, by decide!⟩⟩

/-- C29: over the same address table the backend `getContractAddress` returns `null`
exactly when the frontend one throws, that is when the chain id has no entry or the
address is falsy (missing, `null`, empty); otherwise both return the same address. The
backend version returns a value in every case. -/
theorem contract_address_agreement (table : AddressTable) (chainId : String) :
    (getContractAddress table chainId = none ↔
      ∃ message, Frontend.getContractAddress table chainId "TournamentPlatform" =
        .error message) ∧
    (∀ address, getContractAddress table chainId = some address ↔
      Frontend.getContractAddress table chainId "TournamentPlatform" = .ok address) ∧
    (getContractAddress table chainId = none ↔
      table chainId = none ∨
      ∃ entry, table chainId = some entry ∧ (entry "TournamentPlatform").falsy = true) := by
  unfold getContractAddress getContractAddressBody Frontend.getContractAddress
  cases h : table chainId with
  | none => simp
  | some entry =>
    have hnull : entry "TournamentPlatform" = .null → (entry "TournamentPlatform").falsy = true := by
      intro h1
      rw [h1]
      rfl
    by_cases hf : (entry "TournamentPlatform").falsy = true
    · simp [hf]
    · have hn : ¬ entry "TournamentPlatform" = .null := fun h1 => hf (hnull h1)
      simp [hf, hn]

theorem matchesAddress_iff (s : String) :
    matchesAddress s = true ↔
      ∃ rest : List Char, s.data = '0' :: 'x' :: rest ∧ rest.length = 40 ∧
        ∀ c ∈ rest, isHexDigit c = true := by
  unfold matchesAddress
  split
  · rename_i rest h
    simp only [Bool.and_eq_true, decide_eq_true_eq, List.all_eq_true, h]
    constructor
    · rintro ⟨h1, h2⟩
      exact ⟨rest, rfl, h1, h2⟩
    · rintro ⟨rest', h1, h2, h3⟩
      injection h1 with _ h1
      injection h1 with _ h1
      subst h1
      exact ⟨h2, h3⟩
  · rename_i hno
    constructor
    · intro h
      cases h
    · rintro ⟨rest, h1, _, _⟩
      exact absurd h1 (hno rest)

/-- C30: `formatAddress` returns the empty string for a falsy input, a non-empty string
that is not `0x` followed by exactly 40 hexadecimal characters unchanged, and for a valid
address its first 6 characters, `...` and its last 4 characters, 13 in total. -/
theorem formatAddress_spec :
    (∀ address : JsValue, address.falsy = true → formatAddress address = "") ∧
    (∀ s : String, s ≠ "" → matchesAddress s = false → formatAddress (.string s) = s) ∧
    (∀ s : String, matchesAddress s = true →
      formatAddress (.string s) =
        String.mk (s.data.take 6) ++ "..." ++ String.mk (s.data.drop (s.data.length - 4)) ∧
      (formatAddress (.string s)).length = 13) ∧
    (∀ s : String, matchesAddress s = true ↔
      ∃ rest : List Char, s.data = '0' :: 'x' :: rest ∧ rest.length = 40 ∧
        ∀ c ∈ rest, isHexDigit c = true) := by
  refine ⟨?_, ?_, ?_, matchesAddress_iff⟩
  · intro address h
    simp [formatAddress, h]
  · intro s hs hm
    simp [formatAddress, JsValue.falsy, hs, jsString, hm]
  · intro s hm
    obtain ⟨rest, h1, h2, _⟩ := (matchesAddress_iff s).1 hm
    have hne : s ≠ "" := by
      intro h
      rw [h] at h1
      cases h1
    have hform : formatAddress (.string s) =
        String.mk (s.data.take 6) ++ "..." ++ String.mk (s.data.drop (s.data.length - 4)) := by
      simp [formatAddress, JsValue.falsy, hne, jsString, hm]
    refine ⟨hform, ?_⟩
    rw [hform]
    have hlen : s.data.length = 42 := by
      rw [h1]
      simp [h2]
    have e1 : (String.mk (s.data.take 6)).length = 6 := by
      show (s.data.take 6).length = 6
      rw [List.length_take, hlen]
      rfl
    have e2 : (String.mk (s.data.drop (s.data.length - 4))).length = 4 := by
      show (s.data.drop (s.data.length - 4)).length = 4
      rw [List.length_drop, hlen]
    have e3 : ("..." : String).length = 3 := rfl
    rw [String.length_append, String.length_append, e1, e2, e3]

/-- C30 on the default Hardhat address, on a string that is no address, and on `null`. -/
theorem formatAddress_spec_witness :
    formatAddress (.string "0xe7f1725E7734CE288F8367e1Bb143E90bb3F0512") = "0xe7f1...0512" ∧
    formatAddress (.string "not an address") = "not an address" ∧
    formatAddress .null = "" := by
  refine ⟨?_, formatAddress_spec.2.1 "not an address" (by decide) (by decide),
    formatAddress_spec.1 .null rfl⟩
  rw [(formatAddress_spec.2.2.1 "0xe7f1725E7734CE288F8367e1Bb143E90bb3F0512" (by decide)).1]
  decide

theorem contract_address_default_table :
    getContractAddress defaultTable "31337" =
      some (.string "0xe7f1725E7734CE288F8367e1Bb143E90bb3F0512") ∧
    getContractAddress defaultTable "1" = none ∧
    getContractAddress defaultTable "999" = none := by
  decide

end TournamentPlatform
